import Mathlib

/-!
# Verification of the Data18 scene-upload reconciliation core

Shallow embedding of the `upload-scenes-to-sheet` component
(`helpers.py`, `scene_flatten.py`, `sheet_state.py`, `sheet_writer.py`
and the update loop of `main.py`) together with proofs about the claims
of its specification.

Modelling conventions, used throughout:
* Python strings are Lean `String`s viewed as their list of characters
  (`String.data`); every Python string primitive used by the source
  (strip, split, join, lower, replace, …) is re-implemented below on
  that representation.  Character classes (whitespace, digits, letters)
  are modelled over their ASCII core plus the concrete non-ASCII
  characters the source manipulates explicitly (` `, zero-width
  marks); the scripts only ever feed those classes ASCII-range data.
* A JSON field that may be absent or `null` is modelled as the empty
  string when every use of it in the source is a truthiness test or a
  string operation treating `None` and `""` alike; otherwise it is an
  `Option String`.
* Python `dict`s are association lists with last-insert-wins insertion;
  Python `set`s of strings are `List String` with membership testing.
-/

namespace UploadScenes

/-! ## Python string primitives -/

/-- Python `str.isspace` / `str.strip` whitespace class:
ASCII whitespace plus the non-ASCII space characters Python strips. -/
def pyIsSpace (c : Char) : Bool :=
  c = ' ' || c = '\t' || c = '\n' || c = '\x0b' || c = '\x0c' || c = '\r' ||
  c = '\x1c' || c = '\x1d' || c = '\x1e' || c = '\x1f' || c = '\x85' ||
  c = '\u00A0' || c = '\u1680' ||
  ('\u2000' ≤ c && c ≤ '\u200A') ||
  c = '\u2028' || c = '\u2029' || c = '\u202F' || c = '\u205F' || c = '\u3000'

/-- Python `str.strip()` on the character list. -/
def stripList (l : List Char) : List Char :=
  ((l.dropWhile pyIsSpace).reverse.dropWhile pyIsSpace).reverse

/-- Python `str.strip()`. -/
def pyStrip (s : String) : String := ⟨stripList s.data⟩

/-- Helper for splitting on a single separator character: returns the
first field and the remaining fields. -/
def splitFields (sep : Char) : List Char → List Char × List (List Char)
  | [] => ([], [])
  | c :: rest =>
    let r := splitFields sep rest
    if c = sep then ([], r.1 :: r.2) else (c :: r.1, r.2)

/-- Python `s.split(sep)` for a one-character separator
(always returns at least one field). -/
def pySplitOn (sep : Char) (s : String) : List String :=
  let r := splitFields sep s.data
  (r.1 :: r.2).map fun l => ⟨l⟩

/-- Python whitespace split `s.split()`: splits on runs of whitespace and
drops empty fields.  The accumulator holds the current word, reversed. -/
def wsWords (acc : List Char) : List Char → List (List Char)
  | [] => if acc = [] then [] else [acc.reverse]
  | c :: rest =>
    if pyIsSpace c then
      if acc = [] then wsWords [] rest else acc.reverse :: wsWords [] rest
    else wsWords (c :: acc) rest

/-- Python `s.split()` (no separator argument). -/
def pySplitWs (s : String) : List String := (wsWords [] s.data).map fun l => ⟨l⟩

/-- Python `sep.join(l)`. -/
def joinSep (sep : String) : List String → String
  | [] => ""
  | [s] => s
  | s :: rest => s ++ sep ++ joinSep sep rest

/-- Python `str.lower()` (ASCII model). -/
def pyLower (s : String) : String := ⟨s.data.map Char.toLower⟩

/-- Replace every occurrence of one character by another
(Python `s.replace(a, b)` for one-character strings). -/
def replaceChar (a b : Char) (s : String) : String :=
  ⟨s.data.map fun c => if c = a then b else c⟩

/-- Remove every occurrence of a character
(Python `s.replace(a, "")` for a one-character string). -/
def removeChar (a : Char) (s : String) : String :=
  ⟨s.data.filter fun c => c ≠ a⟩

/-- Python `s.replace(chr(34), chr(34)*2)`: double every double quote. -/
def escapeQuotes (s : String) : String :=
  ⟨s.data.flatMap fun c => if c = '"' then ['"', '"'] else [c]⟩

/-- Python `str.isupper()`: at least one cased character and no cased
character lowercase (ASCII model: cased = letter). -/
def pyIsUpper (w : String) : Bool :=
  w.data.any (fun c => c.isAlpha) && w.data.all fun c => !c.isAlpha || c.isUpper

/-- Python `str.islower()`. -/
def pyIsLower (w : String) : Bool :=
  w.data.any (fun c => c.isAlpha) && w.data.all fun c => !c.isAlpha || c.isLower

/-- Python `str.title()` on a character list: a letter that follows a
non-letter is uppercased, a letter that follows a letter is lowercased,
non-letters pass through.  The boolean records whether the previous
character was a letter. -/
def titleList (prevAlpha : Bool) : List Char → List Char
  | [] => []
  | c :: rest =>
    (if c.isAlpha then (if prevAlpha then c.toLower else c.toUpper) else c) ::
      titleList c.isAlpha rest

/-- Python `str.title()`. -/
def pyTitle (s : String) : String := ⟨titleList false s.data⟩

/-- Python `str(x)` for an optional string (`str(None) = "None"`). -/
def pyStr : Option String → String
  | some s => s
  | none => "None"

/-- Python `x or ""` for an optional string. -/
def orEmpty : Option String → String
  | some s => s
  | none => ""

/-- Python `a or b` on strings (empty string is falsy). -/
def pyOrS (a b : String) : String := if a ≠ "" then a else b

/-- Last-insert-wins insertion into an association list modelling a
Python `dict` (`d[k] = v`). -/
def dictInsert {β : Type} (k : String) (v : β) (m : List (String × β)) :
    List (String × β) :=
  (m.filter fun p => p.1 ≠ k) ++ [(k, v)]

/-! ## `helpers.py` -/

/-- `helpers.to_title_case`: strip `?`, then title-case only the
whitespace-separated tokens that contain no digit and are entirely one
case; tokens with a digit, all-uppercase tokens and mixed-case tokens
pass through unchanged. -/
def to_title_case (value : String) : String :=
  if value = "" then value else
  let value := removeChar '?' value
  let words := pySplitWs value
  let formatted_words := words.map fun word =>
    if word.data.any (fun c => c.isDigit) then word
    else if pyIsUpper word then word
    else if !(pyIsLower word || pyIsUpper word) then word
    else pyTitle word
  joinSep " " formatted_words

/-- `helpers.normalize_whitespace`: replace non-breaking spaces and
collapse whitespace runs. -/
def normalize_whitespace (text : String) : String :=
  joinSep " " (pySplitWs (replaceChar '\u00A0' ' ' text))

/-- `helpers.normalize_name`: lowercase, trim, collapse internal
whitespace (after replacing non-breaking spaces). -/
def normalize_name (name : String) : String :=
  joinSep " " (pySplitWs (pyLower (pyStrip (replaceChar '\u00A0' ' ' name))))

/-- `helpers.NETWORK_DISPLAY_ALIASES`. -/
def NETWORK_DISPLAY_ALIASES : List (String × String) :=
  [("fantasy massage", "Adult Time - Fantasy Massage"),
   ("girlsway", "Adult Time - Girlsway"),
   ("vixen media", "Vixen Media Group")]

/-- `helpers.apply_network_alias`. -/
def apply_network_alias (name : String) : String :=
  if name = "" then ""
  else (NETWORK_DISPLAY_ALIASES.lookup (pyLower (pyStrip name))).getD name

/-- Numeric value of a list of ASCII digits (Python `int`). -/
def natOfDigits (l : List Char) : Nat :=
  l.foldl (fun n c => n * 10 + (c.toNat - '0'.toNat)) 0

/-- The regular-expression match `^(\d+):(\d{2})(?::(\d{2}))?$` of
`helpers.convert_duration`, with `\d` modelled as an ASCII digit:
either `MM:SS` (minutes of arbitrary width, seconds exactly two digits)
or `HH:MM:SS` (hours of arbitrary width, minutes and seconds exactly
two digits). -/
def parseHMS (s : String) : Option (Nat × Nat × Option Nat) :=
  match (pySplitOn ':' s).map String.data with
  | [a, b] =>
    if a ≠ [] && a.all Char.isDigit && b.length = 2 && b.all Char.isDigit then
      some (natOfDigits a, natOfDigits b, none)
    else none
  | [a, b, c] =>
    if a ≠ [] && a.all Char.isDigit && b.length = 2 && b.all Char.isDigit &&
        c.length = 2 && c.all Char.isDigit then
      some (natOfDigits a, natOfDigits b, some (natOfDigits c))
    else none
  | _ => none

/-- Python regex word character `\w` (ASCII model). -/
def isWordChar (c : Char) : Bool := c.isAlphanum || c = '_'

/-- Whether `w` occurs at the head of `l` followed by a word boundary. -/
def headWordIs (l w : List Char) : Bool :=
  w.isPrefixOf l &&
    (match l.drop w.length with
     | [] => true
     | c :: _ => !isWordChar c)

/-- `re.search(r"\b(hr|min|sec)\b", s)`: scan every position preceded by
a word boundary for one of the three unit words.  `prevW` records
whether the previous character was a word character. -/
def hasUnitWord (prevW : Bool) : List Char → Bool
  | [] => false
  | c :: rest =>
    (!prevW && (headWordIs (c :: rest) "hr".data ||
                headWordIs (c :: rest) "min".data ||
                headWordIs (c :: rest) "sec".data))
    || hasUnitWord (isWordChar c) rest

/-- `re.sub(r"^0 hr,\s*", "", s)`. -/
def dropZeroHr (s : String) : String :=
  if "0 hr,".data.isPrefixOf s.data then
    ⟨(s.data.drop 5).dropWhile pyIsSpace⟩
  else s

/-- Render `n` followed by a unit word when `n` is non-zero, else the
empty string (the `f"{h} hr" if h else ""` pieces of the source). -/
def unitPiece (n : Nat) (unit : String) : String :=
  if n ≠ 0 then toString n ++ " " ++ unit else ""

/-- `helpers.convert_duration`.  A `None`/absent duration is modelled as
the empty string (the source returns `""` for both). -/
def convert_duration (duration : String) : String :=
  if pyStrip duration = "" then "" else
  let d := pyStrip duration
  match parseHMS d with
  | some (h, m_, some s) =>
    joinSep ", "
      (([unitPiece h "hr", unitPiece m_ "min", unitPiece s "sec"].filter
        fun p => p ≠ ""))
  | some (mins, secs, none) =>
    let hrs := mins / 60
    let mins := mins % 60
    joinSep ", "
      (([unitPiece hrs "hr", unitPiece mins "min", unitPiece secs "sec"].filter
        fun p => p ≠ ""))
  | none =>
    if hasUnitWord false d.data then pyStrip (dropZeroHr d) else d

/-- `helpers.norm_scene_id`: remove zero-width and non-breaking
characters, then trim and collapse whitespace.  (`norm_scene_id(None)`
is `""`; callers that can pass `None` go through `normSceneIdCell`.) -/
def norm_scene_id (v : String) : String :=
  let s : String :=
    ⟨v.data.filter fun c =>
      !(c = '\u00A0' || c = '\u200B' || c = '\u200E' || c = '\u200F')⟩
  joinSep " " (pySplitWs (pyStrip s))

/-- `helpers.make_hyperlink`. -/
def make_hyperlink (url text : String) (enabled : Bool) : String :=
  if enabled && url ≠ "" then
    "=HYPERLINK(\"" ++ escapeQuotes url ++ "\", \"" ++ escapeQuotes text ++ "\")"
  else text

/-! ## Data model (`scene_flatten.py` input / output) -/

/-- One entry of a scene's `performers` list.  An absent or `null`
`name`/`scenes_count`/`pair_url` is the empty string (the source guards
every access with `or`-defaults or truthiness tests). -/
structure Performer where
  name : String := ""
  scenes_count : String := ""
  pair_url : String := ""
deriving Repr, DecidableEq

/-- A `group` / `network` / `studio` / `site` / `webserie` sub-object:
a name and an optional profile URL.  Absent sub-object, absent field and
`null` all behave as the empty string in the source
(`scene.get("group", {}).get("name")` is only ever truth-tested). -/
structure Entity where
  name : String := ""
  pair_url : String := ""
deriving Repr, DecidableEq

/-- The `details` sub-object. -/
structure SceneDetails where
  duration : String := ""
  original_site_final_url : String := ""
deriving Repr, DecidableEq

/-- One scraped scene record, holding exactly the fields
`flatten_scene_to_row` reads. -/
structure Scene where
  performers : List Performer := []
  group : Entity := {}
  network : Entity := {}
  studio : Entity := {}
  site : Entity := {}
  webserie : Entity := {}
  scene_title : String := ""
  scene_id : String := ""
  date : String := ""
  is_vr_video : Bool := false
  details : SceneDetails := {}
  scene_url : String := ""
  trailer_url : String := ""
deriving Repr, DecidableEq

/-- A sheet cell value produced by the flattener: `none` is Python
`None` (template-driven placeholder), `some s` a string value. -/
abbrev CellValue := Option String

/-- The performer display string
`f"{name} {{count}}"` of `flatten_scene_to_row`. -/
def performerDisplay (performer : Performer) : String :=
  let name := pyStrip performer.name
  let count := pyStrip (pyOrS performer.scenes_count "1")
  name ++ " \x7b" ++ count ++ "\x7d"

/-- One iteration of the performer loop of `flatten_scene_to_row`:
male set first, trans set second (with `" (Trans)"` suffixed), female
default. -/
def partitionStep (male_performers trans_performers : List String)
    (acc : List String × List String) (performer : Performer) :
    List String × List String :=
  let display := performerDisplay performer
  let norm := normalize_name (pyStrip performer.name)
  if male_performers.contains norm then (acc.1 ++ [display], acc.2)
  else if trans_performers.contains norm then
    (acc.1, acc.2 ++ [display ++ " (Trans)"])
  else (acc.1, acc.2 ++ [display])

/-- The male/female bucketing loop of `flatten_scene_to_row`
(columns E and F): returns `(males, females)` in performer order. -/
def partitionPerformers (performers : List Performer)
    (male_performers trans_performers : List String) :
    List String × List String :=
  performers.foldl (partitionStep male_performers trans_performers) ([], [])

/-- Render an entity name for display: alias table, then `?`-stripping
title-casing — the composition the source applies in each branch. -/
def entityText (name : String) : String :=
  to_title_case (apply_network_alias name)

/-- An entity cell: hyperlink if the entity's own URL is truthy, else
plain text — the `make_hyperlink(...) if url else to_title_case(...)`
pattern of each branch of `flatten_scene_to_row`. -/
def entityCell (name url : String) (hyperlinks_enabled : Bool) : String :=
  if url ≠ "" then make_hyperlink url (entityText name) hyperlinks_enabled
  else entityText name

/-- Column G (index 6, Network / Group / Standalone Studio) of
`flatten_scene_to_row`. -/
def networkCell (scene : Scene) (site_to_network_map : List (String × String))
    (hyperlinks_enabled : Bool) : String :=
  let group_name := scene.group.name
  let network_name := scene.network.name
  let studio_name := scene.studio.name
  let site_name := pyOrS scene.site.name scene.webserie.name
  if group_name ≠ "" then
    entityCell group_name scene.group.pair_url hyperlinks_enabled
  else if network_name ≠ "" then
    entityCell network_name scene.network.pair_url hyperlinks_enabled
  else
    let mapped_network :=
      pyOrS ((site_to_network_map.lookup (normalize_name studio_name)).getD "")
            ((site_to_network_map.lookup (normalize_name site_name)).getD "")
    if mapped_network ≠ "" ∧
        normalize_name mapped_network ≠ normalize_name studio_name then
      entityText mapped_network
    else if studio_name ≠ "" then
      entityCell studio_name scene.studio.pair_url hyperlinks_enabled
    else ""

/-- Column H (index 7, Studio / Site / Webserie) of
`flatten_scene_to_row`. -/
def siteCell (scene : Scene) (site_to_network_map : List (String × String))
    (hyperlinks_enabled : Bool) : String :=
  let group_name := scene.group.name
  let studio_name := scene.studio.name
  let site_name := pyOrS scene.site.name scene.webserie.name
  let site_url := pyOrS scene.site.pair_url scene.webserie.pair_url
  if group_name ≠ "" ∧ studio_name ≠ "" then
    entityCell studio_name scene.studio.pair_url hyperlinks_enabled
  else if studio_name ≠ "" ∧
      (site_to_network_map.lookup (normalize_name studio_name)).isSome = true
      then
    entityCell studio_name scene.studio.pair_url hyperlinks_enabled
  else if site_name ≠ "" then
    entityCell site_name site_url hyperlinks_enabled
  else ""

/-- `scene_flatten.flatten_scene_to_row`, exactly as in the source tree:
it returns only the 24-cell row (columns A–X); no performer URL map is
built.  (Its caller `main.py` unpacks two values — see the claims about
that discrepancy.) -/
def flatten_scene_to_row (scene : Scene) (pornstar_name : String)
    (male_performers trans_performers : List String)
    (site_to_network_map : List (String × String))
    (hyperlinks_enabled : Bool) (format_title : String → String) :
    List CellValue :=
  let buckets :=
    partitionPerformers scene.performers male_performers trans_performers
  let males := buckets.1
  let females := buckets.2
  let network_cell := networkCell scene site_to_network_map hyperlinks_enabled
  let site_cell := siteCell scene site_to_network_map hyperlinks_enabled
  let title := format_title scene.scene_title
  let duration := convert_duration scene.details.duration
  [ none,                                              -- A: ID (template)
    some pornstar_name,                                -- B: Pornstar
    some scene.scene_id,                               -- C: Scene ID
    some scene.date,                                   -- D: Release Date
    some (joinSep "\n" (males.map normalize_whitespace)),    -- E: Male
    some (joinSep "\n" (females.map normalize_whitespace)),  -- F: Female
    some network_cell,                                 -- G: Network/Studio
    some site_cell,                                    -- H: Site/Webserie
    some title,                                        -- I: Title
    none,                                              -- J: Thumbnail Image
    some (if scene.is_vr_video then "Yes" else "No"),  -- K: Is VR Video?
    none,                                              -- L: TeleSave
    none,                                              -- M: TeleLink
    none,                                              -- N: Quality?
    none,                                              -- O: File Size
    some duration,                                     -- P: Duration
    none,                                              -- Q: Thumbnail
    none,                                              -- R: ScreenCaps
    none,                                              -- S: Pics Set
    none,                                              -- T: Video Link
    some scene.details.original_site_final_url,        -- U: Original URL
    some scene.scene_url,                              -- V: Data18/IAFD URL
    some scene.trailer_url,                            -- W: Trailer URL
    none ]                                             -- X: TeleLabel

/-- Modelled from the spec: the authoritative (later) revision of
`flatten_scene_to_row`, which is missing from the source tree (only its
caller `main.update_google_sheet_from_file` remains, unpacking two
return values).  Per the spec it returns the same ordered row together
with a map of normalized-performer-name → profile URL, "collected for
every performer regardless of the male/trans/female bucketing".  The
row component is exactly the source-tree flattener's row. -/
def performer_url_map_of (performers : List Performer) :
    List (String × String) :=
  performers.foldl
    (fun acc performer =>
      if performer.pair_url ≠ "" then
        dictInsert (normalize_name (pyStrip performer.name))
          performer.pair_url acc
      else acc)
    []

/-- Modelled from the spec: pair-returning flattener (see
`performer_url_map_of`). -/
def flatten_scene_to_row_pair (scene : Scene) (pornstar_name : String)
    (male_performers trans_performers : List String)
    (site_to_network_map : List (String × String))
    (hyperlinks_enabled : Bool) (format_title : String → String) :
    List CellValue × List (String × String) :=
  (flatten_scene_to_row scene pornstar_name male_performers trans_performers
      site_to_network_map hyperlinks_enabled format_title,
   performer_url_map_of scene.performers)

/-! ## `sheet_state.py` -/

/-- `sheet_state.MAX_COLS` (note: `main.py` declares its own, different
`MAX_COLS = 23`, modelled separately as `MAIN_MAX_COLS`). -/
def MAX_COLS : Nat := 24

def ID_INDEX : Nat := 0
def THUMBNAIL_IMAGE_INDEX : Nat := 9
def TELESAVE_INDEX : Nat := 11
def QUALITY_INDEX : Nat := 13
def TELELABEL_INDEX : Nat := 23

/-- `sheet_state.IGNORED_TEMPLATE_COLUMNS`. -/
def IGNORED_TEMPLATE_COLUMNS : List Nat :=
  [ID_INDEX, THUMBNAIL_IMAGE_INDEX, TELESAVE_INDEX, QUALITY_INDEX,
   TELELABEL_INDEX]

/-- `row + [""] * (n - len(row))`: pad a row of sheet strings on the
right to length `n` (never truncates). -/
def padRow (row : List String) (n : Nat) : List String :=
  row ++ List.replicate (n - row.length) ""

/-- `norm_scene_id(row[2])` where the cell can be a template `None`. -/
def normSceneIdCell : CellValue → String
  | none => ""
  | some s => norm_scene_id s

/-- `sheet_state.build_sceneid_index`: scene-id → 1-based sheet row
number (header is row 1, so the enumeration starts at 2); later rows
overwrite earlier ones holding the same normalized id, as Python dict
assignment does. -/
def build_sceneid_index (existing_rows : List (List String)) :
    List (String × Nat) :=
  (existing_rows.enumFrom 2).foldl
    (fun index p =>
      let row := padRow p.2 MAX_COLS
      let sid := norm_scene_id (row.getD 2 "")
      if sid ≠ "" then dictInsert sid p.1 index else index)
    []

/-- `sheet_state.find_empty_template_rows`: the 1-based numbers of rows
whose every column outside `IGNORED_TEMPLATE_COLUMNS` is empty after
trimming. -/
def rowIsFreeTemplate (row : List String) : Bool :=
  (padRow row MAX_COLS).enum.all fun q =>
    IGNORED_TEMPLATE_COLUMNS.contains q.1 || pyStrip q.2 = ""

def find_empty_template_rows (existing_rows : List (List String)) :
    List Nat :=
  (existing_rows.enumFrom 2).foldl
    (fun free p => if rowIsFreeTemplate p.2 then free ++ [p.1] else free)
    []

/-! ## `sheet_writer.py` -/

def DATA18_URL_INDEX : Nat := 21
def DURATION_INDEX : Nat := 15
def PERFORMER_COLUMNS : List Nat := [4, 5]

/-- A `gspread` `Cell(row, col, value)` write request: 1-based row and
column; writing `None` clears the cell. -/
structure Cell where
  row : Nat
  col : Nat
  value : CellValue
deriving Repr, DecidableEq

/-- One `textFormatRuns` entry of a rich-text request: character offset
plus an optional hyperlink. -/
structure TextRun where
  startIndex : Nat
  link : Option String
deriving Repr, DecidableEq

/-- A raw `updateCells` rich-text request (0-based grid coordinates, as
in the Sheets API). -/
structure RichTextRequest where
  sheetId : Nat
  rowIndex : Nat
  columnIndex : Nat
  text : String
  runs : List TextRun
deriving Repr, DecidableEq

/-- `sheet_writer.build_performer_rich_text_request`.  The fold carries
`(runs so far, current character offset)`; the source skips the `+1`
newline advance after the final line, which is unobservable because the
offset is never read again. -/
def build_performer_rich_text_request (sheet_id row col : Nat)
    (cell_text : String) (performer_url_map : List (String × String)) :
    RichTextRequest :=
  let lines := pySplitOn '\n' cell_text
  let runs :=
    (lines.foldl
      (fun (st : List TextRun × Nat) line =>
        let name := pyStrip ((pySplitOn '\x7b' line).headD "")
        let norm := normalize_name name
        let url := performer_url_map.lookup norm
        let run : TextRun :=
          { startIndex := st.2,
            link := match url with
                    | some u => if u ≠ "" then some u else none
                    | none => none }
        (st.1 ++ [run], st.2 + line.length + 1))
      ([], 0)).1
  { sheetId := sheet_id, rowIndex := row - 1, columnIndex := col - 1,
    text := cell_text, runs := runs }

/-- `sheet_writer.merge_urls`: split both cell texts on newlines, strip
each entry, drop blanks, and rebuild the deduplicated union in sorted
order (`"\n".join(sorted(old_urls | new_urls))`). -/
def cleanLines (s : String) : List String :=
  ((pySplitOn '\n' s).map pyStrip).filter fun u => u ≠ ""

/-- Lexicographic code-point comparison of two character lists — the
executable form of Python's `<` on strings (Lean's `String` order is
defined the same way but does not reduce in the kernel). -/
def ltChars : List Char → List Char → Bool
  | [], [] => false
  | [], _ :: _ => true
  | _ :: _, [] => false
  | a :: as, b :: bs =>
    if a < b then true else if b < a then false else ltChars as bs

/-- Python `a < b` on strings. -/
def pyLt (a b : String) : Bool := ltChars a.data b.data

/-- `ltChars` decides the lexicographic list order (which, under
`Mathlib`, is `List.Lex` over the character order). -/
theorem ltChars_iff : ∀ a b : List Char, ltChars a b = true ↔ a < b := by
  intro a
  induction a with
  | nil =>
    intro b
    cases b with
    | nil =>
      constructor
      · intro h; exact absurd h (by decide)
      · intro h; cases h
    | cons c cs =>
      constructor
      · intro _; exact List.Lex.nil
      · intro _; rfl
  | cons x xs ih =>
    intro b
    cases b with
    | nil =>
      constructor
      · intro h; simp [ltChars] at h
      · intro h; cases h
    | cons y ys =>
      show (if x < y then true
        else if y < x then false else ltChars xs ys) = true ↔ _
      by_cases hxy : x < y
      · rw [if_pos hxy]
        constructor
        · intro _; exact List.Lex.rel hxy
        · intro _; rfl
      · rw [if_neg hxy]
        by_cases hyx : y < x
        · rw [if_pos hyx]
          constructor
          · intro h; exact absurd h (by decide)
          · intro h
            cases h with
            | cons h' => exact absurd hyx (lt_irrefl _)
            | rel h' => exact absurd h' hxy
        · rw [if_neg hyx]
          have hxyeq : x = y := le_antisymm (not_lt.1 hyx) (not_lt.1 hxy)
          subst hxyeq
          rw [ih ys]
          constructor
          · intro h; exact List.Lex.cons h
          · intro h
            cases h with
            | cons h' => exact h'
            | rel h' => exact absurd h' hxy

/-- `pyLt` decides the `String` order. -/
theorem pyLt_iff (a b : String) : pyLt a b = true ↔ a < b := by
  rw [String.lt_iff_toList_lt]
  exact ltChars_iff a.data b.data

/-- Insert into a strictly sorted duplicate-free list, keeping it so:
the result of Python's `sorted(set)` is built one element at a time. -/
def insertSorted (x : String) : List String → List String
  | [] => [x]
  | y :: ys =>
    if pyLt x y then x :: y :: ys
    else if x = y then y :: ys
    else y :: insertSorted x ys

/-- The strictly ascending enumeration of a list's elements — the
unique value of Python's `sorted(set(l))`. -/
def sortedDedup (l : List String) : List String :=
  l.foldr insertSorted []

def merge_urls (old new : String) : String :=
  joinSep "\n" (sortedDedup (cleanLines old ++ cleanLines new))

/-- The body of one iteration of `update_existing_row`'s column loop:
the write requests column `c` contributes. -/
def updateColumn (sheet_id target_rownum c : Nat) (new_val : CellValue)
    (old_val : String) (performer_url_map : List (String × String)) :
    List Cell × List RichTextRequest :=
  if PERFORMER_COLUMNS.contains c &&
      (match new_val with | some s => pyStrip s ≠ "" | none => false) then
    ([], [build_performer_rich_text_request sheet_id target_rownum (c + 1)
            (orEmpty new_val) performer_url_map])
  else if c = DURATION_INDEX then
    (if pyStrip old_val ≠ "" then []
     else if pyStrip (pyStr new_val) ≠ "" then
       [⟨target_rownum, c + 1, new_val⟩]
     else [], [])
  else if c = DATA18_URL_INDEX then
    let merged := merge_urls old_val (pyStr new_val)
    (if merged ≠ old_val then [⟨target_rownum, c + 1, some merged⟩] else [],
     [])
  else
    (if orEmpty new_val ≠ old_val then [⟨target_rownum, c + 1, new_val⟩]
     else [], [])

/-- `sheet_writer.update_existing_row`: the writes enqueued for one
matched row, in column order (CPython iterates the small-int set
`UPDATEABLE_COLUMNS` in ascending order, modelled as an ascending
list). -/
def update_existing_row (sheet_id target_rownum : Nat)
    (new_row : List CellValue) (old_row : List String)
    (updateable_columns : List Nat)
    (performer_url_map : List (String × String)) :
    List Cell × List RichTextRequest :=
  updateable_columns.foldr
    (fun c acc =>
      let r := updateColumn sheet_id target_rownum c (new_row.getD c none)
        (old_row.getD c "") performer_url_map
      (r.1 ++ acc.1, r.2 ++ acc.2))
    ([], [])

/-- `sheet_writer.write_new_row_from_template`: a plain write for every
column of the candidate row except `telelabel_index`. -/
def write_new_row_from_template (sheet_rownum : Nat)
    (row_with_offset : List CellValue) (telelabel_index : Nat) :
    List Cell :=
  row_with_offset.enum.filterMap fun p =>
    if p.1 = telelabel_index then none
    else some ⟨sheet_rownum, p.1 + 1, p.2⟩

/-! ## `main.py` update loop -/

/-- `main.MAX_COLS` (23 — one less than `sheet_state.MAX_COLS`). -/
def MAIN_MAX_COLS : Nat := 23

/-- `main.UPDATEABLE_COLUMNS` = `{1, *range(2, 9), 11, *range(13, 22)}`
in CPython's ascending small-int iteration order. -/
def UPDATEABLE_COLUMNS : List Nat :=
  [1, 2, 3, 4, 5, 6, 7, 8, 11, 13, 14, 15, 16, 17, 18, 19, 20, 21]

/-- `main.normalize_rows`: drop the header row, pad each remaining row
to `main.MAX_COLS` sheet columns. -/
def normalize_rows (sheet_values : List (List String)) :
    List (List String) :=
  (sheet_values.drop 1).map fun r => padRow r MAIN_MAX_COLS

/-- `row + [""] * (MAX_COLS - len(row))` applied to a candidate row in
`main.py` (with `main.MAX_COLS = 23` and 24-cell rows this pads by the
empty list). -/
def padCandidate (row : List CellValue) : List CellValue :=
  row ++ List.replicate (MAIN_MAX_COLS - row.length) (some "")

/-- The write requests accumulated by one run. -/
structure RunOutput where
  batch_cells : List Cell
  rich_text_requests : List RichTextRequest
deriving Repr, DecidableEq

/-- The per-scene loop of `main.update_google_sheet_from_file`:
look each candidate row up in the scene-id index; update the matched
row, or insert into the next free template row (`telelabel_index` is
passed as the literal `22` at the call site), or silently drop the
candidate when no free row remains. -/
def processScenes (sheet_id : Nat) (scene_index : List (String × Nat))
    (existing_rows : List (List String)) (free_rows : List Nat) :
    List (List CellValue × List (String × String)) → Nat → RunOutput
  | [], _ => ⟨[], []⟩
  | (row, links) :: rest, free_idx =>
    let sid := normSceneIdCell (row.getD 2 none)
    match scene_index.lookup sid with
    | some rnum =>
      let w := update_existing_row sheet_id rnum row
        (existing_rows.getD (rnum - 2) []) UPDATEABLE_COLUMNS links
      let res := processScenes sheet_id scene_index existing_rows free_rows
        rest free_idx
      ⟨w.1 ++ res.batch_cells, w.2 ++ res.rich_text_requests⟩
    | none =>
      if free_idx < free_rows.length then
        let w := write_new_row_from_template (free_rows.getD free_idx 0)
          row 22
        let res := processScenes sheet_id scene_index existing_rows free_rows
          rest (free_idx + 1)
        ⟨w ++ res.batch_cells, res.rich_text_requests⟩
      else
        processScenes sheet_id scene_index existing_rows free_rows rest
          free_idx

/-- `main.update_google_sheet_from_file`, from the point where the
scene JSON and the sheet snapshot are in memory: flatten every scene
(the run is modelled with the spec's pair-returning flattener, see
`flatten_scene_to_row_pair`), rebuild the index and free-row list from
the snapshot, then accumulate the batch.  `format_title` is the
identity lambda the source passes. -/
def runUpload (scenes : List Scene) (pornstar : String)
    (male_performers trans_performers : List String)
    (site_to_network_map : List (String × String))
    (hyperlinks_enabled : Bool) (sheet_values : List (List String))
    (sheet_id : Nat) : RunOutput :=
  let rowsLinks := scenes.map fun scene =>
    let p := flatten_scene_to_row_pair scene pornstar male_performers
      trans_performers site_to_network_map hyperlinks_enabled (fun x => x)
    (padCandidate p.1, p.2)
  let existing_rows := normalize_rows sheet_values
  let scene_index := build_sceneid_index existing_rows
  let free_rows := find_empty_template_rows existing_rows
  processScenes sheet_id scene_index existing_rows free_rows rowsLinks 0

/-! ## Applying a run's writes to the sheet snapshot

The external collaborator applies each accumulated write as an
independent cell assignment; a `None` plain value clears the cell, a
rich-text request sets the cell's text. -/

/-- Set the 1-based `(r, c)` cell of the grid, growing it as needed. -/
def setCellGrid (g : List (List String)) (r c : Nat) (v : String) :
    List (List String) :=
  let g := g ++ List.replicate (r - g.length) []
  g.set (r - 1)
    (let row := g.getD (r - 1) []
     (padRow row c).set (c - 1) v)

def applyCellWrite (g : List (List String)) (cell : Cell) :
    List (List String) :=
  setCellGrid g cell.row cell.col (orEmpty cell.value)

def applyRichWrite (g : List (List String)) (req : RichTextRequest) :
    List (List String) :=
  setCellGrid g (req.rowIndex + 1) (req.columnIndex + 1) req.text

/-- Apply every write of a run, plain batch first (as `main.py` issues
them), then the rich-text batch. -/
def applyRun (g : List (List String)) (out : RunOutput) :
    List (List String) :=
  out.rich_text_requests.foldl applyRichWrite
    (out.batch_cells.foldl applyCellWrite g)

/-! ## Claim C9 — duration normalization -/

/-- C9, counterexample.  The claim's final clause says "any other string
is returned unchanged", but `convert_duration` strips the input before
classifying it and returns the stripped form, so a non-duration string
with surrounding whitespace comes back changed. -/
theorem convert_duration_changes_padded_passthrough :
    convert_duration " some text " ≠ " some text " ∧
    convert_duration " some text " = "some text" := by
  constructor
  · decide
  · decide

/-- C9 (amended).  `convert_duration` maps `"5:09"` to `"5 min, 9 sec"`,
`"1:02:03"` to `"1 hr, 2 min, 3 sec"` and `"0:45"` to `"45 sec"`; every
trimmed string matching the numeric `HH:MM:SS` / `MM:SS` pattern becomes
the comma-joined list of its non-zero hr/min/sec components (for `MM:SS`
the minutes are first carried into hours); a trimmed string containing a
unit word `hr`/`min`/`sec` passes through with a leading `"0 hr,"`
stripped; any other string is returned trimmed of surrounding
whitespace but otherwise unchanged. -/
theorem convert_duration_spec :
    convert_duration "5:09" = "5 min, 9 sec" ∧
    convert_duration "1:02:03" = "1 hr, 2 min, 3 sec" ∧
    convert_duration "0:45" = "45 sec" ∧
    (∀ s h m sec, parseHMS (pyStrip s) = some (h, m, some sec) →
      convert_duration s =
        joinSep ", " (([unitPiece h "hr", unitPiece m "min",
          unitPiece sec "sec"].filter fun p => p ≠ ""))) ∧
    (∀ s m sec, parseHMS (pyStrip s) = some (m, sec, none) →
      convert_duration s =
        joinSep ", " (([unitPiece (m / 60) "hr", unitPiece (m % 60) "min",
          unitPiece sec "sec"].filter fun p => p ≠ ""))) ∧
    (∀ s, parseHMS (pyStrip s) = none →
      hasUnitWord false (pyStrip s).data = true →
      convert_duration s = pyStrip (dropZeroHr (pyStrip s))) ∧
    (∀ s, parseHMS (pyStrip s) = none →
      hasUnitWord false (pyStrip s).data = false →
      convert_duration s = pyStrip s) := by
  have hemp : parseHMS "" = none := by decide
  refine ⟨by decide, by decide, by decide, ?_, ?_, ?_, ?_⟩
  · intro s h m sec hp
    by_cases he : pyStrip s = ""
    · rw [he, hemp] at hp; cases hp
    · simp [convert_duration, if_neg he, hp]
  · intro s m sec hp
    by_cases he : pyStrip s = ""
    · rw [he, hemp] at hp; cases hp
    · simp [convert_duration, if_neg he, hp]
  · intro s hp hw
    by_cases he : pyStrip s = ""
    · rw [he] at hw; exact absurd hw (by decide)
    · simp [convert_duration, if_neg he, hp, hw]
  · intro s hp hw
    by_cases he : pyStrip s = ""
    · simp [convert_duration, he]
    · simp [convert_duration, if_neg he, hp, hw]

/-- C9, witness for the amended theorem: the passthrough clause at the
concrete input `"film"`. -/
theorem convert_duration_spec_witness :
    parseHMS (pyStrip "film") = none ∧
    hasUnitWord false (pyStrip "film").data = false ∧
    convert_duration "film" = pyStrip "film" :=
  ⟨by decide, by decide,
   convert_duration_spec.2.2.2.2.2.2 "film" (by decide) (by decide)⟩

/-! ## Claim C10 — performer bucketing priority -/

/-- The male case of one `partitionStep`. -/
theorem partitionStep_male (ms ts : List String) (p : Performer)
    (x y : List String)
    (hm : ms.contains (normalize_name (pyStrip p.name)) = true) :
    partitionStep ms ts (x, y) p = (x ++ [performerDisplay p], y) := by
  simp only [partitionStep]
  rw [if_pos hm]

/-- The trans case of one `partitionStep`. -/
theorem partitionStep_trans (ms ts : List String) (p : Performer)
    (x y : List String)
    (hm : ¬ms.contains (normalize_name (pyStrip p.name)) = true)
    (ht : ts.contains (normalize_name (pyStrip p.name)) = true) :
    partitionStep ms ts (x, y) p =
      (x, y ++ [performerDisplay p ++ " (Trans)"]) := by
  simp only [partitionStep]
  rw [if_neg hm, if_pos ht]

/-- The default (female) case of one `partitionStep`. -/
theorem partitionStep_female (ms ts : List String) (p : Performer)
    (x y : List String)
    (hm : ¬ms.contains (normalize_name (pyStrip p.name)) = true)
    (ht : ¬ts.contains (normalize_name (pyStrip p.name)) = true) :
    partitionStep ms ts (x, y) p = (x, y ++ [performerDisplay p]) := by
  simp only [partitionStep]
  rw [if_neg hm, if_neg ht]

/-- The fold of `partitionPerformers` with an arbitrary starting
accumulator prepends the accumulator to the buckets of the list. -/
theorem partitionPerformers_accum (performers : List Performer)
    (ms ts : List String) (a b : List String) :
    performers.foldl (partitionStep ms ts) (a, b) =
    (a ++ (partitionPerformers performers ms ts).1,
     b ++ (partitionPerformers performers ms ts).2) := by
  induction performers generalizing a b with
  | nil => simp [partitionPerformers]
  | cons p rest ih =>
    by_cases hm : ms.contains (normalize_name (pyStrip p.name)) = true
    · have hr : partitionPerformers (p :: rest) ms ts =
          (performerDisplay p :: (partitionPerformers rest ms ts).1,
           (partitionPerformers rest ms ts).2) := by
        show (p :: rest).foldl (partitionStep ms ts) ([], []) = _
        rw [List.foldl_cons, partitionStep_male ms ts p [] [] hm, ih]
        simp [partitionPerformers]
      rw [List.foldl_cons, partitionStep_male ms ts p a b hm, ih, hr]
      simp
    · by_cases ht : ts.contains (normalize_name (pyStrip p.name)) = true
      · have hr : partitionPerformers (p :: rest) ms ts =
            ((partitionPerformers rest ms ts).1,
             (performerDisplay p ++ " (Trans)") ::
               (partitionPerformers rest ms ts).2) := by
          show (p :: rest).foldl (partitionStep ms ts) ([], []) = _
          rw [List.foldl_cons, partitionStep_trans ms ts p [] [] hm ht, ih]
          simp [partitionPerformers]
        rw [List.foldl_cons, partitionStep_trans ms ts p a b hm ht, ih, hr]
        simp
      · have hr : partitionPerformers (p :: rest) ms ts =
            ((partitionPerformers rest ms ts).1,
             performerDisplay p :: (partitionPerformers rest ms ts).2) := by
          show (p :: rest).foldl (partitionStep ms ts) ([], []) = _
          rw [List.foldl_cons, partitionStep_female ms ts p [] [] hm ht, ih]
          simp [partitionPerformers]
        rw [List.foldl_cons, partitionStep_female ms ts p a b hm ht, ih, hr]
        simp

/-- Splitting `partitionPerformers` across an append. -/
theorem partitionPerformers_append (xs ys : List Performer)
    (ms ts : List String) :
    partitionPerformers (xs ++ ys) ms ts =
      ((partitionPerformers xs ms ts).1 ++ (partitionPerformers ys ms ts).1,
       (partitionPerformers xs ms ts).2 ++
         (partitionPerformers ys ms ts).2) := by
  show ((xs ++ ys).foldl (partitionStep ms ts) ([], [])) = _
  rw [List.foldl_append]
  have h := partitionPerformers_accum ys ms ts
    (partitionPerformers xs ms ts).1 (partitionPerformers xs ms ts).2
  calc List.foldl (partitionStep ms ts)
        (xs.foldl (partitionStep ms ts) ([], [])) ys
      = ys.foldl (partitionStep ms ts)
          ((partitionPerformers xs ms ts).1,
           (partitionPerformers xs ms ts).2) := by rfl
    _ = _ := h

/-- C10.  A performer whose normalized name is in the male reference set
lands in the male bucket with the plain `"{name} {count}"` display (no
`" (Trans)"` suffix), regardless of trans-set membership: the male test
comes first, the trans test second, and female is the default; and the
male column (index 4) of the flattened row is exactly the newline-join
of the male bucket. -/
theorem male_bucket_precedence :
    (∀ (q : Performer) (ms ts : List String),
      partitionPerformers [q] ms ts =
        (if ms.contains (normalize_name (pyStrip q.name)) then
          ([performerDisplay q], [])
        else if ts.contains (normalize_name (pyStrip q.name)) then
          ([], [performerDisplay q ++ " (Trans)"])
        else ([], [performerDisplay q]))) ∧
    (∀ (xs ys : List Performer) (p : Performer) (ms ts : List String),
      ms.contains (normalize_name (pyStrip p.name)) = true →
      partitionPerformers (xs ++ p :: ys) ms ts =
        ((partitionPerformers xs ms ts).1 ++
           performerDisplay p :: (partitionPerformers ys ms ts).1,
         (partitionPerformers xs ms ts).2 ++
           (partitionPerformers ys ms ts).2)) ∧
    (∀ (scene : Scene) (pornstar : String) (ms ts : List String)
        (siteMap : List (String × String)) (hl : Bool)
        (fmt : String → String),
      (flatten_scene_to_row scene pornstar ms ts siteMap hl fmt).getD 4
          none =
        some (joinSep "\n"
          ((partitionPerformers scene.performers ms ts).1.map
            normalize_whitespace))) := by
  refine ⟨?_, ?_, ?_⟩
  · intro q ms ts
    by_cases hm : ms.contains (normalize_name (pyStrip q.name)) = true
    · rw [if_pos hm]
      show [q].foldl (partitionStep ms ts) ([], []) = _
      rw [List.foldl_cons, partitionStep_male ms ts q [] [] hm]
      rfl
    · by_cases ht : ts.contains (normalize_name (pyStrip q.name)) = true
      · rw [if_neg hm, if_pos ht]
        show [q].foldl (partitionStep ms ts) ([], []) = _
        rw [List.foldl_cons, partitionStep_trans ms ts q [] [] hm ht]
        rfl
      · rw [if_neg hm, if_neg ht]
        show [q].foldl (partitionStep ms ts) ([], []) = _
        rw [List.foldl_cons, partitionStep_female ms ts q [] [] hm ht]
        rfl
  · intro xs ys p ms ts hm
    rw [partitionPerformers_append]
    have hstep : partitionPerformers (p :: ys) ms ts =
        (performerDisplay p :: (partitionPerformers ys ms ts).1,
         (partitionPerformers ys ms ts).2) := by
      show (p :: ys).foldl (partitionStep ms ts) ([], []) = _
      rw [List.foldl_cons, partitionStep_male ms ts p [] [] hm,
        partitionPerformers_accum]
      simp
    rw [hstep]
  · intro scene pornstar ms ts siteMap hl fmt
    simp [flatten_scene_to_row, List.getD]

/-- C10, witness: a performer in both reference sets is bucketed male,
unsuffixed. -/
theorem male_bucket_precedence_witness :
    partitionPerformers [⟨"Dana DeArmond", "2", ""⟩]
        ["dana dearmond"] ["dana dearmond"] =
      (["Dana DeArmond \x7b2\x7d"], []) := by
  have h := male_bucket_precedence.2.1 [] [] ⟨"Dana DeArmond", "2", ""⟩
    ["dana dearmond"] ["dana dearmond"] (by decide)
  simpa [partitionPerformers, performerDisplay] using h

/-! ## Claim C6 — derived network is plain text -/

/-- C6, counterexample.  When the site→network mapping sends the studio
to itself (same normalized name), the source's guard
`normalize_name(mapped_network) != normalize_name(studio_name)` fails
and the standalone-studio branch runs instead, producing a hyperlink:
the claim's "is a key of the site→network mapping ⟹ plain mapped text"
is false for such a scene even though its studio's normalized name is a
key of the mapping. -/
theorem derived_network_hyperlinked_on_self_map :
    networkCell { studio := { name := "Brazzers", pair_url := "http://bz" } }
        [("brazzers", "Brazzers")] true =
      "=HYPERLINK(\"http://bz\", \"Brazzers\")" ∧
    ([(("brazzers" : String), ("Brazzers" : String))].lookup
        (normalize_name "Brazzers")).isSome = true ∧
    networkCell { studio := { name := "Brazzers", pair_url := "http://bz" } }
        [("brazzers", "Brazzers")] true ≠ entityText "Brazzers" := by
  refine ⟨by decide, by decide, by decide⟩

/-- C6 (amended).  For a scene with no group and no network whose
studio (or, failing that, site) name maps to a network name with a
*different* normalized form, column G is exactly the mapped network
name rendered as plain text (alias table + title casing) — never a
hyperlink, whatever URLs are present and whether hyperlinks are
enabled; when the mapped name normalizes to the studio name itself, the
standalone-studio rule applies instead. -/
theorem derived_network_plain_text (scene : Scene)
    (siteMap : List (String × String)) (hl : Bool)
    (pornstar : String) (ms ts : List String) (fmt : String → String)
    (hg : scene.group.name = "") (hn : scene.network.name = "")
    (hmapped : pyOrS ((siteMap.lookup
        (normalize_name scene.studio.name)).getD "")
      ((siteMap.lookup (normalize_name
        (pyOrS scene.site.name scene.webserie.name))).getD "") ≠ "")
    (hdiff : normalize_name (pyOrS ((siteMap.lookup
        (normalize_name scene.studio.name)).getD "")
      ((siteMap.lookup (normalize_name
        (pyOrS scene.site.name scene.webserie.name))).getD "")) ≠
      normalize_name scene.studio.name) :
    networkCell scene siteMap hl =
      entityText (pyOrS ((siteMap.lookup
        (normalize_name scene.studio.name)).getD "")
      ((siteMap.lookup (normalize_name
        (pyOrS scene.site.name scene.webserie.name))).getD "")) ∧
    (flatten_scene_to_row scene pornstar ms ts siteMap hl fmt).getD 6
        none =
      some (entityText (pyOrS ((siteMap.lookup
        (normalize_name scene.studio.name)).getD "")
      ((siteMap.lookup (normalize_name
        (pyOrS scene.site.name scene.webserie.name))).getD ""))) := by
  have hcell : networkCell scene siteMap hl =
      entityText (pyOrS ((siteMap.lookup
        (normalize_name scene.studio.name)).getD "")
      ((siteMap.lookup (normalize_name
        (pyOrS scene.site.name scene.webserie.name))).getD "")) := by
    simp only [networkCell]
    rw [if_neg (fun h => h hg), if_neg (fun h => h hn),
      if_pos ⟨hmapped, hdiff⟩]
  refine ⟨hcell, ?_⟩
  simp only [flatten_scene_to_row, List.getD]
  simp [hcell]

/-- C6, witness: studio `"Blacked"` mapped to network `"Vixen Media"`
(plain text, despite the studio having its own URL and hyperlinks being
enabled; the alias table then renders it `"Vixen Media Group"`). -/
theorem derived_network_plain_text_witness :
    networkCell
        { studio := { name := "Blacked", pair_url := "http://blk" } }
        [("blacked", "Vixen Media")] true =
      "Vixen Media Group" := by
  have h := (derived_network_plain_text
    { studio := { name := "Blacked", pair_url := "http://blk" } }
    [("blacked", "Vixen Media")] true "P" [] [] (fun x => x)
    rfl rfl (by decide) (by decide)).1
  rw [h]
  decide

/-! ## Claim C7 — group hyperlink and independent site cell -/

/-- C7.  For a scene with a group that has a URL, with a studio present
and hyperlinks enabled: column G is the `=HYPERLINK` formula pointing at
the group URL; column H shows the studio, hyperlinked iff the studio
has its own URL; and the site cell is computed independently of the
group's URL (replacing the group URL by anything leaves it
unchanged). -/
theorem group_hyperlink_priority (scene : Scene)
    (siteMap : List (String × String)) (pornstar : String)
    (ms ts : List String) (fmt : String → String)
    (hg : scene.group.name ≠ "") (hgu : scene.group.pair_url ≠ "")
    (hs : scene.studio.name ≠ "") :
    ((flatten_scene_to_row scene pornstar ms ts siteMap true fmt).getD 6
        none =
      some ("=HYPERLINK(\"" ++ escapeQuotes scene.group.pair_url ++
        "\", \"" ++ escapeQuotes (entityText scene.group.name) ++ "\")")) ∧
    ((flatten_scene_to_row scene pornstar ms ts siteMap true fmt).getD 7
        none =
      some (if scene.studio.pair_url ≠ "" then
        "=HYPERLINK(\"" ++ escapeQuotes scene.studio.pair_url ++ "\", \"" ++
          escapeQuotes (entityText scene.studio.name) ++ "\")"
      else entityText scene.studio.name)) ∧
    (∀ u : String,
      siteCell { scene with group := ⟨scene.group.name, u⟩ } siteMap true =
        siteCell scene siteMap true) := by
  have hnet : networkCell scene siteMap true =
      "=HYPERLINK(\"" ++ escapeQuotes scene.group.pair_url ++ "\", \"" ++
        escapeQuotes (entityText scene.group.name) ++ "\")" := by
    simp only [networkCell]
    rw [if_pos hg]
    simp only [entityCell]
    rw [if_pos hgu]
    simp only [make_hyperlink, entityText]
    rw [if_pos (by simp [hgu])]
  have hsite : siteCell scene siteMap true =
      (if scene.studio.pair_url ≠ "" then
        "=HYPERLINK(\"" ++ escapeQuotes scene.studio.pair_url ++ "\", \"" ++
          escapeQuotes (entityText scene.studio.name) ++ "\")"
      else entityText scene.studio.name) := by
    simp only [siteCell]
    rw [if_pos ⟨hg, hs⟩]
    simp only [entityCell]
    by_cases hsu : scene.studio.pair_url ≠ ""
    · rw [if_pos hsu, if_pos hsu]
      simp only [make_hyperlink, entityText]
      rw [if_pos (by simp [hsu])]
    · rw [if_neg hsu, if_neg hsu]
  refine ⟨?_, ?_, ?_⟩
  · simp only [flatten_scene_to_row, List.getD]
    simp [hnet]
  · simp only [flatten_scene_to_row, List.getD]
    simp [hsite]
  · intro u
    simp only [siteCell]

/-- C7, witness at a concrete scene (group and studio both carry
URLs). -/
theorem group_hyperlink_priority_witness :
    (flatten_scene_to_row
        { group := { name := "MYLF", pair_url := "http://g" }
          studio := { name := "Mylfed", pair_url := "http://s" } }
        "P" [] [] [] true (fun x => x)).getD 6 none =
      some "=HYPERLINK(\"http://g\", \"MYLF\")" ∧
    (flatten_scene_to_row
        { group := { name := "MYLF", pair_url := "http://g" }
          studio := { name := "Mylfed", pair_url := "http://s" } }
        "P" [] [] [] true (fun x => x)).getD 7 none =
      some "=HYPERLINK(\"http://s\", \"Mylfed\")" := by
  have h := group_hyperlink_priority
    { group := { name := "MYLF", pair_url := "http://g" }
      studio := { name := "Mylfed", pair_url := "http://s" } }
    [] "P" [] [] (fun x => x) (by decide) (by decide) (by decide)
  refine ⟨?_, ?_⟩
  · rw [h.1]; decide
  · rw [h.2.1]; decide

/-! ## Sorted-list and split/join lemmas for `merge_urls` -/

theorem insertSorted_mem (x : String) (l : List String) (a : String) :
    a ∈ insertSorted x l ↔ a = x ∨ a ∈ l := by
  induction l with
  | nil => simp [insertSorted]
  | cons y ys ih =>
    by_cases hlt : pyLt x y = true
    · simp [insertSorted, hlt]
    · by_cases heq : x = y
      · subst heq
        simp only [insertSorted, if_neg hlt, if_pos rfl]
        constructor
        · intro h; exact Or.inr h
        · rintro (h | h)
          · subst h; exact List.mem_cons_self _ _
          · exact h
      · simp only [insertSorted, if_neg hlt, if_neg heq, List.mem_cons, ih]
        tauto

theorem insertSorted_sorted (x : String) (l : List String)
    (h : l.Sorted (· < ·)) : (insertSorted x l).Sorted (· < ·) := by
  induction l with
  | nil => simp [insertSorted]
  | cons y ys ih =>
    rw [List.sorted_cons] at h
    by_cases hlt : x < y
    · rw [insertSorted, if_pos ((pyLt_iff x y).2 hlt), List.sorted_cons]
      refine ⟨?_, (List.sorted_cons.2 h)⟩
      intro b hb
      rcases List.mem_cons.1 hb with hb | hb
      · subst hb; exact hlt
      · exact hlt.trans (h.1 b hb)
    · have hplt : ¬pyLt x y = true := fun h' => hlt ((pyLt_iff x y).1 h')
      by_cases heq : x = y
      · rw [insertSorted, if_neg hplt, if_pos heq]
        exact List.sorted_cons.2 h
      · rw [insertSorted, if_neg hplt, if_neg heq, List.sorted_cons]
        refine ⟨?_, ih h.2⟩
        intro b hb
        rcases (insertSorted_mem x ys b).1 hb with hb | hb
        · rcases lt_trichotomy x y with h' | h' | h'
          · exact absurd h' hlt
          · exact absurd h' heq
          · rw [hb]; exact h'
        · exact h.1 b hb

theorem sortedDedup_sorted (l : List String) :
    (sortedDedup l).Sorted (· < ·) := by
  induction l with
  | nil => simp [sortedDedup]
  | cons x xs ih => exact insertSorted_sorted x _ ih

theorem sortedDedup_mem (l : List String) (a : String) :
    a ∈ sortedDedup l ↔ a ∈ l := by
  induction l with
  | nil => simp [sortedDedup]
  | cons x xs ih =>
    show a ∈ insertSorted x (sortedDedup xs) ↔ _
    rw [insertSorted_mem, ih, List.mem_cons]

/-- Two strictly sorted lists with the same members are equal. -/
theorem sorted_eq_of_mem_iff : ∀ {l m : List String},
    l.Sorted (· < ·) → m.Sorted (· < ·) → (∀ a, a ∈ l ↔ a ∈ m) → l = m := by
  intro l
  induction l with
  | nil =>
    intro m _ _ h
    cases m with
    | nil => rfl
    | cons b bs => exact absurd ((h b).2 (List.mem_cons_self b bs)) (by simp)
  | cons a as ih =>
    intro m hl hm h
    cases m with
    | nil => exact absurd ((h a).1 (List.mem_cons_self a as)) (by simp)
    | cons b bs =>
      rw [List.sorted_cons] at hl hm
      have hab : a = b := by
        rcases List.mem_cons.1 ((h a).1 (List.mem_cons_self a as)) with
          h' | h'
        · exact h'
        · rcases List.mem_cons.1 ((h b).2 (List.mem_cons_self b bs)) with
            h'' | h''
          · exact h''.symm
          · exact absurd (hm.1 a h') (asymm (hl.1 b h''))
      subst hab
      have htl : ∀ x, x ∈ as ↔ x ∈ bs := by
        intro x
        constructor
        · intro hx
          rcases List.mem_cons.1 ((h x).1 (List.mem_cons_of_mem a hx)) with
            h' | h'
          · exact absurd (h' ▸ hl.1 x hx) (lt_irrefl x)
          · exact h'
        · intro hx
          rcases List.mem_cons.1 ((h x).2 (List.mem_cons_of_mem a hx)) with
            h' | h'
          · exact absurd (h' ▸ hm.1 x hx) (lt_irrefl x)
          · exact h'
      rw [ih hl.2 hm.2 htl]

theorem sortedDedup_self_append (l : List String) :
    sortedDedup (l ++ l) = sortedDedup l := by
  refine sorted_eq_of_mem_iff (sortedDedup_sorted _) (sortedDedup_sorted _)
    fun a => ?_
  rw [sortedDedup_mem, sortedDedup_mem, List.mem_append, or_self]

theorem sortedDedup_of_sorted (l : List String)
    (h : l.Sorted (· < ·)) : sortedDedup l = l :=
  sorted_eq_of_mem_iff (sortedDedup_sorted _) h
    fun a => sortedDedup_mem l a

/-- `dropWhile` is idempotent. -/
theorem dropWhile_idem (p : Char → Bool) (l : List Char) :
    (l.dropWhile p).dropWhile p = l.dropWhile p := by
  induction l with
  | nil => rfl
  | cons c cs ih =>
    by_cases hc : p c
    · rw [List.dropWhile_cons_of_pos hc, ih]
    · rw [List.dropWhile_cons_of_neg hc, List.dropWhile_cons_of_neg hc]

/-- A list unchanged by `dropWhile` has a head failing the predicate. -/
theorem dropWhile_eq_self_head (p : Char → Bool) (c : Char) (cs : List Char)
    (h : List.dropWhile p (c :: cs) = c :: cs) : p c = false := by
  by_cases hc : p c
  · rw [List.dropWhile_cons_of_pos hc] at h
    have hlen := congrArg List.length h
    have hle : (cs.dropWhile p).length ≤ cs.length :=
      (List.dropWhile_sublist _).length_le
    simp only [List.length_cons] at hlen
    omega
  · exact Bool.not_eq_true _ ▸ (by simpa using hc)

/-- Right-stripping a list with no leading whitespace leaves a list with
no leading whitespace. -/
theorem dropWhile_rstrip (p : Char → Bool) (m : List Char)
    (hm : m.dropWhile p = m) :
    ((m.reverse.dropWhile p).reverse).dropWhile p =
      (m.reverse.dropWhile p).reverse := by
  cases hR : (m.reverse.dropWhile p).reverse with
  | nil => rfl
  | cons c cs =>
    have hpre : (m.reverse.dropWhile p).reverse <+: m := by
      have h' : ((m.reverse.dropWhile p).reverse).reverse <:+ m.reverse := by
        rw [List.reverse_reverse]; exact List.dropWhile_suffix p
      exact List.reverse_suffix.1 h'
    obtain ⟨t, ht⟩ := hpre
    rw [hR] at ht
    have hmc : m = c :: (cs ++ t) := by rw [← ht]; rfl
    have hpc : p c = false := by
      apply dropWhile_eq_self_head p c (cs ++ t)
      rw [← hmc]; exact hm
    rw [List.dropWhile_cons_of_neg (by simp [hpc])]

/-- Stripping is idempotent. -/
theorem stripList_idem (l : List Char) :
    stripList (stripList l) = stripList l := by
  have hA : (l.dropWhile pyIsSpace).dropWhile pyIsSpace =
      l.dropWhile pyIsSpace := dropWhile_idem _ _
  have h1 : (stripList l).dropWhile pyIsSpace = stripList l :=
    dropWhile_rstrip pyIsSpace (l.dropWhile pyIsSpace) hA
  show (((stripList l).dropWhile pyIsSpace).reverse.dropWhile
      pyIsSpace).reverse = stripList l
  rw [h1]
  show ((((l.dropWhile pyIsSpace).reverse.dropWhile
      pyIsSpace).reverse).reverse.dropWhile pyIsSpace).reverse = _
  rw [List.reverse_reverse, dropWhile_idem]
  rfl

/-- `pyStrip` is idempotent. -/
theorem pyStrip_idem (s : String) : pyStrip (pyStrip s) = pyStrip s :=
  congrArg String.mk (stripList_idem s.data)

/-- The stripped list is a sublist of the original. -/
theorem stripList_sublist (l : List Char) : (stripList l).Sublist l := by
  have h1 : (l.dropWhile pyIsSpace).Sublist l := List.dropWhile_sublist _
  have h2 : ((l.dropWhile pyIsSpace).reverse.dropWhile pyIsSpace).Sublist
      (l.dropWhile pyIsSpace).reverse := List.dropWhile_sublist _
  have h3 : (((l.dropWhile pyIsSpace).reverse.dropWhile
      pyIsSpace).reverse).Sublist (l.dropWhile pyIsSpace) := by
    have h4 := List.reverse_sublist.2 h2
    rw [List.reverse_reverse] at h4
    exact h4
  exact h3.trans h1

/-- `splitFields` over a separator-free prefix. -/
theorem splitFields_append_sepfree (sep : Char) (xs ys : List Char)
    (h : ∀ c ∈ xs, c ≠ sep) :
    splitFields sep (xs ++ ys) =
      (xs ++ (splitFields sep ys).1, (splitFields sep ys).2) := by
  induction xs with
  | nil => simp
  | cons c cs ih =>
    have hc : c ≠ sep := h c (List.mem_cons_self c cs)
    simp only [List.cons_append, splitFields, List.append_eq]
    rw [ih fun d hd => h d (List.mem_cons_of_mem c hd)]
    simp [hc]

/-- `splitFields` of a separator-free list is one field. -/
theorem splitFields_sepfree (sep : Char) (xs : List Char)
    (h : ∀ c ∈ xs, c ≠ sep) : splitFields sep xs = (xs, []) := by
  have h' := splitFields_append_sepfree sep xs [] h
  simpa [splitFields] using h'

/-- No field produced by `splitFields` contains the separator. -/
theorem splitFields_no_sep (sep : Char) (l : List Char) :
    (∀ c ∈ (splitFields sep l).1, c ≠ sep) ∧
      ∀ f ∈ (splitFields sep l).2, ∀ c ∈ f, c ≠ sep := by
  induction l with
  | nil => simp [splitFields]
  | cons c cs ih =>
    by_cases hc : c = sep
    · simp only [splitFields, if_pos hc]
      refine ⟨by simp, ?_⟩
      intro f hf
      rcases List.mem_cons.1 hf with hf | hf
      · subst hf; exact ih.1
      · exact ih.2 f hf
    · simp only [splitFields, if_neg hc]
      refine ⟨?_, ih.2⟩
      intro d hd
      rcases List.mem_cons.1 hd with hd | hd
      · subst hd; exact hc
      · exact ih.1 d hd

/-- No piece of `pySplitOn` contains the separator. -/
theorem pySplitOn_no_sep (sep : Char) (s : String) (a : String)
    (ha : a ∈ pySplitOn sep s) : ∀ c ∈ a.data, c ≠ sep := by
  unfold pySplitOn at ha
  rw [List.mem_map] at ha
  obtain ⟨f, hf, rfl⟩ := ha
  rcases List.mem_cons.1 hf with hf | hf
  · subst hf; exact (splitFields_no_sep sep s.data).1
  · exact (splitFields_no_sep sep s.data).2 f hf

/-- `joinSep` then `pySplitOn` round-trips on a non-empty list of
separator-free pieces. -/
theorem pySplitOn_joinSep (l : List String)
    (h : ∀ a ∈ l, '\n' ∉ a.data) (hne : l ≠ []) :
    pySplitOn '\n' (joinSep "\n" l) = l := by
  induction l with
  | nil => cases hne rfl
  | cons s rest ih =>
    cases rest with
    | nil =>
      show pySplitOn '\n' s = [s]
      unfold pySplitOn
      rw [splitFields_sepfree '\n' s.data fun c hc he =>
        (h s (List.mem_cons_self s [])) (he ▸ hc)]
      rfl
    | cons s2 rest2 =>
      have hj : joinSep "\n" (s :: s2 :: rest2) =
          s ++ "\n" ++ joinSep "\n" (s2 :: rest2) := rfl
      rw [hj]
      unfold pySplitOn
      have hd : (s ++ "\n" ++ joinSep "\n" (s2 :: rest2)).data =
          s.data ++ ('\n' :: (joinSep "\n" (s2 :: rest2)).data) := by
        rw [String.data_append, String.data_append, List.append_assoc]
        rfl
      rw [hd]
      rw [splitFields_append_sepfree '\n' s.data _ fun c hc he =>
        (h s (List.mem_cons_self s _)) (he ▸ hc)]
      have hsf : splitFields '\n'
          ('\n' :: (joinSep "\n" (s2 :: rest2)).data) =
          ([], (splitFields '\n' (joinSep "\n" (s2 :: rest2)).data).1 ::
            (splitFields '\n' (joinSep "\n" (s2 :: rest2)).data).2) := by
        simp [splitFields]
      rw [hsf]
      have ihr := ih (fun a haa => h a (List.mem_cons_of_mem s haa))
        (by simp)
      unfold pySplitOn at ihr
      simp only [List.append_nil, List.map_cons] at *
      rw [List.cons.injEq]
      constructor
      · show (⟨s.data⟩ : String) = s
        rfl
      · exact ihr

/-- Every entry of `cleanLines` is stripped, non-blank, newline-free. -/
theorem cleanLines_mem_props (s : String) (a : String)
    (ha : a ∈ cleanLines s) :
    pyStrip a = a ∧ a ≠ "" ∧ '\n' ∉ a.data := by
  unfold cleanLines at ha
  rw [List.mem_filter] at ha
  obtain ⟨ha1, ha2⟩ := ha
  rw [List.mem_map] at ha1
  obtain ⟨u, hu, rfl⟩ := ha1
  refine ⟨pyStrip_idem u, by simpa using ha2, ?_⟩
  intro hmem
  have hsub : (pyStrip u).data.Sublist u.data := stripList_sublist u.data
  exact pySplitOn_no_sep '\n' s u hu '\n' (hsub.mem hmem) rfl

/-- Splitting a merged URL cell recovers the sorted deduplicated
union. -/
theorem cleanLines_merge (a b : String) :
    cleanLines (merge_urls a b) =
      sortedDedup (cleanLines a ++ cleanLines b) := by
  have hL : ∀ x ∈ sortedDedup (cleanLines a ++ cleanLines b),
      pyStrip x = x ∧ x ≠ "" ∧ '\n' ∉ x.data := by
    intro x hx
    rcases List.mem_append.1 ((sortedDedup_mem _ x).1 hx) with h | h
    · exact cleanLines_mem_props _ _ h
    · exact cleanLines_mem_props _ _ h
  unfold merge_urls
  generalize hM : sortedDedup (cleanLines a ++ cleanLines b) = M at hL ⊢
  by_cases hLn : M = []
  · rw [hLn]
    decide
  · unfold cleanLines
    rw [pySplitOn_joinSep M (fun x hx => (hL x hx).2.2) hLn]
    have hmap : M.map pyStrip = M := by
      rw [List.map_congr_left fun x hx => (hL x hx).1]
      exact List.map_id _
    rw [hmap]
    rw [List.filter_eq_self.2 fun x hx => by
      simpa using (hL x hx).2.1]

/-- Merging a value with itself yields its canonical (sorted,
deduplicated) form. -/
theorem merge_urls_self (x : String) :
    merge_urls x x = joinSep "\n" (sortedDedup (cleanLines x)) := by
  unfold merge_urls
  rw [sortedDedup_self_append]

/-- `merge_urls` output is a fixed point of self-merging. -/
theorem merge_urls_idem (a b : String) :
    merge_urls (merge_urls a b) (merge_urls a b) = merge_urls a b := by
  rw [merge_urls_self, cleanLines_merge,
    sortedDedup_of_sorted _ (sortedDedup_sorted _)]
  rfl

/-! ## The update path around the URL-merge column -/

/-- Every plain write contributed by column `c` of
`update_existing_row`'s loop targets sheet column `c + 1`. -/
theorem updateColumn_col (s r c : Nat) (nv : CellValue) (ov : String)
    (links : List (String × String)) :
    ∀ cell ∈ (updateColumn s r c nv ov links).1, cell.col = c + 1 := by
  intro cell hcell
  unfold updateColumn at hcell
  split_ifs at hcell <;> simp_all

/-- The batch of `update_existing_row` is the concatenation of the
per-column batches, in column order. -/
theorem update_existing_row_cells (s r : Nat) (nr : List CellValue)
    (orow : List String) (cols : List Nat)
    (links : List (String × String)) :
    (update_existing_row s r nr orow cols links).1 =
      (cols.map fun c =>
        (updateColumn s r c (nr.getD c none)
          (orow.getD c "") links).1).flatten := by
  induction cols with
  | nil => rfl
  | cons c cs ih =>
    show ((updateColumn s r c (nr.getD c none) (orow.getD c "") links).1 ++
        (update_existing_row s r nr orow cs links).1) = _
    rw [ih]
    simp

theorem filter_join_cells (p : Cell → Bool) (L : List (List Cell)) :
    (L.flatten).filter p = (L.map fun l => l.filter p).flatten := by
  induction L with
  | nil => rfl
  | cons l ls ih => simp [List.filter_append, ih]

/-- A column other than 21 contributes nothing at sheet column 22. -/
theorem updateColumn_filter_ne (s r c : Nat) (nv : CellValue) (ov : String)
    (links : List (String × String)) (hc : ¬c + 1 = 22) :
    ((updateColumn s r c nv ov links).1.filter
      fun cell => cell.col == 22) = [] := by
  rw [List.filter_eq_nil_iff]
  intro cell hcell
  have h := updateColumn_col s r c nv ov links cell hcell
  simp only [h, beq_iff_eq]
  exact hc

/-- Column 21 is handled by the merge rule. -/
theorem updateColumn_21 (s r : Nat) (nv : CellValue) (ov : String)
    (links : List (String × String)) :
    (updateColumn s r 21 nv ov links).1 =
      (if merge_urls ov (pyStr nv) ≠ ov then
        [⟨r, 22, some (merge_urls ov (pyStr nv))⟩]
      else []) := by
  simp [updateColumn, PERFORMER_COLUMNS, DURATION_INDEX, DATA18_URL_INDEX]

theorem updateColumn_filter_21 (s r : Nat) (nv : CellValue) (ov : String)
    (links : List (String × String)) :
    ((updateColumn s r 21 nv ov links).1.filter
      fun cell => cell.col == 22) =
      (if merge_urls ov (pyStr nv) ≠ ov then
        [⟨r, 22, some (merge_urls ov (pyStr nv))⟩]
      else []) := by
  rw [updateColumn_21]
  by_cases h : merge_urls ov (pyStr nv) ≠ ov
  · rw [if_pos h]
    rfl
  · rw [if_neg h]
    rfl

/-- C8.  `merge_urls` splits both cell texts on newlines, strips each
entry, drops blanks and joins the sorted deduplicated union: merging a
value with itself returns exactly that canonical form, so `merge_urls`
is idempotent on already-merged values; and in the update path over
`main.UPDATEABLE_COLUMNS` a plain write for the URL-list column (index
21, sheet column 22) is emitted iff the merged result differs from the
old cell value — and then it carries exactly the merged value. -/
theorem merge_urls_spec :
    (∀ x, merge_urls x x = joinSep "\n" (sortedDedup (cleanLines x))) ∧
    (∀ a b, merge_urls (merge_urls a b) (merge_urls a b) =
      merge_urls a b) ∧
    (∀ (s r : Nat) (nr : List CellValue) (orow : List String)
        (links : List (String × String)),
      (update_existing_row s r nr orow UPDATEABLE_COLUMNS links).1.filter
          (fun cell => cell.col == 22) =
        (if merge_urls (orow.getD 21 "") (pyStr (nr.getD 21 none)) ≠
            orow.getD 21 "" then
          [⟨r, 22, some (merge_urls (orow.getD 21 "")
            (pyStr (nr.getD 21 none)))⟩]
        else [])) := by
  refine ⟨merge_urls_self, merge_urls_idem, ?_⟩
  intro s r nr orow links
  rw [update_existing_row_cells, filter_join_cells]
  simp only [UPDATEABLE_COLUMNS, List.map_cons, List.map_nil]
  rw [updateColumn_filter_ne s r 1 _ _ _ (by decide),
    updateColumn_filter_ne s r 2 _ _ _ (by decide),
    updateColumn_filter_ne s r 3 _ _ _ (by decide),
    updateColumn_filter_ne s r 4 _ _ _ (by decide),
    updateColumn_filter_ne s r 5 _ _ _ (by decide),
    updateColumn_filter_ne s r 6 _ _ _ (by decide),
    updateColumn_filter_ne s r 7 _ _ _ (by decide),
    updateColumn_filter_ne s r 8 _ _ _ (by decide),
    updateColumn_filter_ne s r 11 _ _ _ (by decide),
    updateColumn_filter_ne s r 13 _ _ _ (by decide),
    updateColumn_filter_ne s r 14 _ _ _ (by decide),
    updateColumn_filter_ne s r 15 _ _ _ (by decide),
    updateColumn_filter_ne s r 16 _ _ _ (by decide),
    updateColumn_filter_ne s r 17 _ _ _ (by decide),
    updateColumn_filter_ne s r 18 _ _ _ (by decide),
    updateColumn_filter_ne s r 19 _ _ _ (by decide),
    updateColumn_filter_ne s r 20 _ _ _ (by decide),
    updateColumn_filter_21 s r _ _ _]
  simp

/-! ## Claim C1 — the flattener's output -/

/-- Performer bucketing never reads the performers' profile URLs. -/
theorem partitionPerformers_ignores_urls (performers : List Performer)
    (ms ts : List String) (f : Performer → String) :
    partitionPerformers
        (performers.map fun p => { p with pair_url := f p }) ms ts =
      partitionPerformers performers ms ts := by
  unfold partitionPerformers
  rw [List.foldl_map]
  rfl

/-- C1 (what the source-tree code actually does).  The committed
`flatten_scene_to_row` returns only the ordered 24-cell row: its result
is invariant under arbitrary modification of every performer's
`pair_url`, so no performer-URL map is (or could be) part of its
output, and the row has exactly the 24 fixed fields.  The claim's pair
`(row, url-map)` shape — which `main.py` unpacks and the spec
describes — does not hold for this revision of the function. -/
def setPerformerUrls (scene : Scene) (f : Performer → String) : Scene :=
  { scene with
      performers := scene.performers.map fun p => { p with pair_url := f p } }

theorem flatten_returns_row_only (scene : Scene) (pornstar : String)
    (ms ts : List String) (siteMap : List (String × String)) (hl : Bool)
    (fmt : String → String) (f : Performer → String) :
    flatten_scene_to_row (setPerformerUrls scene f)
        pornstar ms ts siteMap hl fmt =
      flatten_scene_to_row scene pornstar ms ts siteMap hl fmt ∧
    (flatten_scene_to_row scene pornstar ms ts siteMap hl fmt).length =
      24 := by
  constructor
  · have hproj : (setPerformerUrls scene f).performers =
        scene.performers.map fun p => { p with pair_url := f p } := rfl
    have hnc : networkCell (setPerformerUrls scene f) siteMap hl =
        networkCell scene siteMap hl := rfl
    have hsc : siteCell (setPerformerUrls scene f) siteMap hl =
        siteCell scene siteMap hl := rfl
    simp only [flatten_scene_to_row, hproj, hnc, hsc,
      partitionPerformers_ignores_urls]
    simp [setPerformerUrls]
  · simp [flatten_scene_to_row]

/-! ## Claim C2 — template-row insertion and the label column -/

/-- A demonstration scene with every externally sourced field
populated. -/
def demoScene : Scene :=
  { performers := [⟨"Alice", "3", "http://p/alice"⟩]
    studio := ⟨"Babes", "http://st/babes"⟩
    scene_title := "First Date"
    scene_id := "S1"
    date := "2020-01-01"
    details := ⟨"5:09", "http://orig"⟩
    scene_url := "http://d18/s1"
    trailer_url := "http://trailer" }

/-- C2 (what the code actually writes).  `main.py` calls
`write_new_row_from_template` with `telelabel_index = 22`, so for a
24-cell candidate row the batch targets sheet columns 1–22 and 24: the
0-indexed column 22 (the trailer-URL column W) is the one skipped, and
the designated label column (0-indexed 23, declared as
`TELELABEL_INDEX = 23` in `sheet_state.py`, sheet column 24) *does*
receive a write — a `None` that clears it.  This contradicts the claim,
which requires column 23 to be left untouched and all others
written. -/
theorem template_write_hits_label_column :
    ((write_new_row_from_template 5
        (padCandidate (flatten_scene_to_row demoScene "Starlet" [] [] []
          true fun x => x)) 22).map fun c => c.col) =
      [1, 2, 3, 4, 5, 6, 7, 8, 9, 10, 11, 12, 13, 14, 15, 16, 17, 18, 19,
        20, 21, 22, 24] ∧
    ((write_new_row_from_template 5
        (padCandidate (flatten_scene_to_row demoScene "Starlet" [] [] []
          true fun x => x)) 22).filter
      fun c => c.col == TELELABEL_INDEX + 1) = [⟨5, 24, none⟩] ∧
    ¬((write_new_row_from_template 5
        (padCandidate (flatten_scene_to_row demoScene "Starlet" [] [] []
          true fun x => x)) 22).map fun c => c.col).contains 23 := by
  refine ⟨by decide, by decide, by decide⟩

/-! ## Claim C3 — updates and the template-owned columns -/

/-- A 23-column existing sheet row whose template-owned save-flag
(index 11) and quality (index 13) cells are pre-filled. -/
def prefilledOldRow : List String :=
  ["", "Starlet", "S1", "", "", "", "", "", "", "", "", "SAVE", "",
   "GOOD", "", "", "", "", "", "", "", "", ""]

/-- C3 (what the code actually writes).  `main.UPDATEABLE_COLUMNS`
contains the template-owned indices 11 (save-flag, `TELESAVE_INDEX`)
and 13 (quality, `QUALITY_INDEX`), so updating an existing row whose
save-flag or quality cell is non-empty emits clearing writes (`None`)
for those columns — contradicting the claim that no write is ever
emitted for the banner/save-flag/quality/label columns.  (Columns 9 and
23 are indeed never in the updateable set.) -/
theorem update_clears_saveflag_and_quality :
    (⟨2, 12, none⟩ : Cell) ∈
      (update_existing_row 7 2
        (padCandidate (flatten_scene_to_row demoScene "Starlet" [] [] []
          true fun x => x))
        prefilledOldRow UPDATEABLE_COLUMNS []).1 ∧
    (⟨2, 14, none⟩ : Cell) ∈
      (update_existing_row 7 2
        (padCandidate (flatten_scene_to_row demoScene "Starlet" [] [] []
          true fun x => x))
        prefilledOldRow UPDATEABLE_COLUMNS []).1 ∧
    (11 ∈ UPDATEABLE_COLUMNS ∧ 13 ∈ UPDATEABLE_COLUMNS) ∧
    11 ∈ IGNORED_TEMPLATE_COLUMNS ∧ 13 ∈ IGNORED_TEMPLATE_COLUMNS := by
  refine ⟨by decide, by decide, by decide, by decide, by decide⟩

/-! ## Reading cells of the applied grid -/

/-- The value of the 1-based `(r, c)` cell of a grid snapshot (empty
when out of range — exactly what `get_all_values` hands back after the
padding in `normalize_rows`/`sheet_state`). -/
def getCell (g : List (List String)) (r c : Nat) : String :=
  (g.getD (r - 1) []).getD (c - 1) ""

theorem getD_replicate {α : Type} (k i : Nat) (d : α) :
    (List.replicate k d).getD i d = d := by
  induction k generalizing i with
  | zero => cases i <;> rfl
  | succ n ih =>
    cases i with
    | zero => rfl
    | succ j => exact ih j

/-- Padding with the lookup default never changes a defaulted read. -/
theorem getD_append_replicate {α : Type} (l : List α) (k i : Nat) (d : α) :
    (l ++ List.replicate k d).getD i d = l.getD i d := by
  induction l generalizing i with
  | nil =>
    simp only [List.nil_append]
    cases i <;> simp [getD_replicate, List.getD]
  | cons a as ih =>
    cases i with
    | zero => rfl
    | succ j => exact ih j

theorem getD_set_self {α : Type} (l : List α) (i : Nat) (a d : α)
    (h : i < l.length) : (l.set i a).getD i d = a := by
  rw [List.getD_eq_getElem?_getD, List.getElem?_set_self]
  · rfl
  · exact h

theorem getD_set_ne {α : Type} (l : List α) (i j : Nat) (a d : α)
    (h : i ≠ j) : (l.set i a).getD j d = l.getD j d := by
  rw [List.getD_eq_getElem?_getD, List.getElem?_set_ne h,
    ← List.getD_eq_getElem?_getD]

/-- What `setCellGrid` does to an arbitrary defaulted read. -/
theorem getCell_setCellGrid (g : List (List String)) (r0 c0 r c : Nat)
    (v : String) (hr0 : 1 ≤ r0) (hc0 : 1 ≤ c0) (hr : 1 ≤ r) (hc : 1 ≤ c) :
    getCell (setCellGrid g r0 c0 v) r c =
      if r0 = r ∧ c0 = c then v else getCell g r c := by
  unfold setCellGrid getCell
  have hlen : r0 - 1 < (g ++ List.replicate (r0 - g.length) []).length := by
    simp only [List.length_append, List.length_replicate]
    omega
  by_cases hrow : r0 = r
  · subst hrow
    rw [getD_set_self _ _ _ _ hlen]
    have hrowval : (g ++ List.replicate (r0 - g.length) []).getD (r0 - 1)
        [] = g.getD (r0 - 1) [] := getD_append_replicate g _ _ []
    rw [hrowval]
    by_cases hcol : c0 = c
    · subst hcol
      rw [if_pos ⟨rfl, rfl⟩]
      have hclen : c0 - 1 < (padRow (g.getD (r0 - 1) []) c0).length := by
        unfold padRow
        simp only [List.length_append, List.length_replicate]
        omega
      exact getD_set_self _ _ _ _ hclen
    · rw [if_neg fun hcon => hcol hcon.2]
      rw [getD_set_ne _ _ _ _ _ (by omega)]
      unfold padRow
      rw [getD_append_replicate]
  · rw [if_neg fun hcon => hrow hcon.1]
    rw [getD_set_ne _ _ _ _ _ (by omega)]
    rw [getD_append_replicate g _ _ []]

/-- Applying plain writes that never target `(r, c)` leaves the cell
unchanged. -/
theorem getCell_foldl_cells_untouched (cells : List Cell)
    (g : List (List String)) (r c : Nat) (hr : 1 ≤ r) (hc : 1 ≤ c)
    (hcells : ∀ cell ∈ cells, 1 ≤ cell.row ∧ 1 ≤ cell.col ∧
      ¬(cell.row = r ∧ cell.col = c)) :
    getCell (cells.foldl applyCellWrite g) r c = getCell g r c := by
  induction cells generalizing g with
  | nil => rfl
  | cons cell rest ih =>
    rw [List.foldl_cons]
    rw [ih _ fun x hx => hcells x (List.mem_cons_of_mem cell hx)]
    unfold applyCellWrite
    rw [getCell_setCellGrid _ _ _ _ _ _
      (hcells cell (List.mem_cons_self cell rest)).1
      (hcells cell (List.mem_cons_self cell rest)).2.1 hr hc]
    rw [if_neg (hcells cell (List.mem_cons_self cell rest)).2.2]

/-- After a batch of plain writes a cell either kept its old value or
holds the value of one of the writes addressed to it. -/
theorem getCell_foldl_cells_mem (cells : List Cell)
    (g : List (List String)) (r c : Nat) (hr : 1 ≤ r) (hc : 1 ≤ c)
    (hcells : ∀ cell ∈ cells, 1 ≤ cell.row ∧ 1 ≤ cell.col) :
    getCell (cells.foldl applyCellWrite g) r c = getCell g r c ∨
    ∃ cell ∈ cells, cell.row = r ∧ cell.col = c ∧
      getCell (cells.foldl applyCellWrite g) r c = orEmpty cell.value := by
  induction cells generalizing g with
  | nil => exact Or.inl rfl
  | cons cell rest ih =>
    rw [List.foldl_cons]
    rcases ih (applyCellWrite g cell)
        (fun x hx => hcells x (List.mem_cons_of_mem cell hx)) with h | h
    · rw [h]
      unfold applyCellWrite
      rw [getCell_setCellGrid _ _ _ _ _ _
        (hcells cell (List.mem_cons_self cell rest)).1
        (hcells cell (List.mem_cons_self cell rest)).2 hr hc]
      by_cases htar : cell.row = r ∧ cell.col = c
      · refine Or.inr ⟨cell, List.mem_cons_self cell rest, htar.1, htar.2,
          ?_⟩
        rw [if_pos htar]
      · rw [if_neg htar]
        exact Or.inl rfl
    · obtain ⟨x, hx, hxr, hxc, hxv⟩ := h
      exact Or.inr ⟨x, List.mem_cons_of_mem cell hx, hxr, hxc, hxv⟩

/-- Applying rich-text writes that never target column `c` leaves every
cell of that column unchanged. -/
theorem getCell_foldl_rich_untouched (reqs : List RichTextRequest)
    (g : List (List String)) (r c : Nat) (hr : 1 ≤ r) (hc : 1 ≤ c)
    (hreqs : ∀ req ∈ reqs, req.columnIndex + 1 ≠ c) :
    getCell (reqs.foldl applyRichWrite g) r c = getCell g r c := by
  induction reqs generalizing g with
  | nil => rfl
  | cons req rest ih =>
    rw [List.foldl_cons, ih _ fun x hx => hreqs x (List.mem_cons_of_mem req hx)]
    unfold applyRichWrite
    rw [getCell_setCellGrid _ _ _ _ _ _ (by omega) (by omega) hr hc]
    rw [if_neg fun hcon => hreqs req (List.mem_cons_self req rest) hcon.2]

/-! ## The scene-id index and the free-row list -/

theorem lookup_cons_eq {β : Type} (k : String) (p : String × β)
    (rest : List (String × β)) (h : k = p.1) :
    (p :: rest).lookup k = some p.2 := by
  have hb : (k == p.1) = true := by simpa using h
  simp [List.lookup, hb]

theorem lookup_cons_ne {β : Type} (k : String) (p : String × β)
    (rest : List (String × β)) (h : ¬k = p.1) :
    (p :: rest).lookup k = rest.lookup k := by
  have hb : (k == p.1) = false := by simpa using h
  simp [List.lookup, hb]

theorem lookup_append {β : Type} (k : String) (l₁ l₂ : List (String × β)) :
    (l₁ ++ l₂).lookup k = ((l₁.lookup k).orElse fun _ => l₂.lookup k) := by
  induction l₁ with
  | nil => rfl
  | cons p rest ih =>
    by_cases hk : k = p.1
    · rw [List.cons_append, lookup_cons_eq k p _ hk, lookup_cons_eq k p _ hk]
      rfl
    · rw [List.cons_append, lookup_cons_ne k p _ hk, lookup_cons_ne k p _ hk]
      exact ih

theorem lookup_filter_ne {β : Type} (k : String) (m : List (String × β)) :
    (m.filter fun p => p.1 ≠ k).lookup k = none := by
  induction m with
  | nil => rfl
  | cons p rest ih =>
    by_cases hp : p.1 ≠ k
    · rw [List.filter_cons_of_pos (by simpa using hp),
        lookup_cons_ne k p _ fun h => hp h.symm]
      exact ih
    · rw [List.filter_cons_of_neg (by simpa using hp)]
      exact ih

theorem lookup_filter_other {β : Type} (k k' : String)
    (m : List (String × β)) (h : k ≠ k') :
    (m.filter fun p => p.1 ≠ k').lookup k = m.lookup k := by
  induction m with
  | nil => rfl
  | cons p rest ih =>
    by_cases hp : p.1 ≠ k'
    · rw [List.filter_cons_of_pos (by simpa using hp)]
      by_cases hk : k = p.1
      · rw [lookup_cons_eq k p _ hk, lookup_cons_eq k p _ hk]
      · rw [lookup_cons_ne k p _ hk, lookup_cons_ne k p _ hk]
        exact ih
    · rw [List.filter_cons_of_neg (by simpa using hp)]
      have hk : ¬k = p.1 := by
        simp only [not_not] at hp
        exact fun hcon => h (hcon.trans hp)
      rw [lookup_cons_ne k p _ hk]
      exact ih

/-- Python `d[k'] = v` then `d.get(k)`. -/
theorem lookup_dictInsert {β : Type} (k k' : String) (v : β)
    (m : List (String × β)) :
    (dictInsert k' v m).lookup k =
      if k = k' then some v else m.lookup k := by
  unfold dictInsert
  rw [lookup_append]
  by_cases hk : k = k'
  · subst hk
    rw [lookup_filter_ne, if_pos rfl]
    simp [List.lookup, Option.orElse]
  · rw [lookup_filter_other k k' m hk, if_neg hk]
    cases hm : m.lookup k with
    | none =>
      have hb : (k == k') = false := by simpa using hk
      simp [List.lookup, Option.orElse, hb]
    | some b => simp [Option.orElse]

/-- One step of `build_sceneid_index`'s fold. -/
def indexStep (index : List (String × Nat)) (p : Nat × List String) :
    List (String × Nat) :=
  let row := padRow p.2 MAX_COLS
  let sid := norm_scene_id (row.getD 2 "")
  if sid ≠ "" then dictInsert sid p.1 index else index

theorem build_sceneid_index_eq (existing_rows : List (List String)) :
    build_sceneid_index existing_rows =
      (existing_rows.enumFrom 2).foldl indexStep [] := rfl

/-- The padded row reads the scene-id column like the raw row. -/
theorem padRow_getD (row : List String) (n i : Nat) :
    (padRow row n).getD i "" = row.getD i "" := by
  unfold padRow
  exact getD_append_replicate row _ i ""

/-- A positive index lookup names a data row carrying that id. -/
theorem index_fold_some (rows : List (List String)) :
    ∀ (i : Nat) (acc : List (String × Nat)) (sid : String) (rnum : Nat),
    ((rows.enumFrom i).foldl indexStep acc).lookup sid = some rnum →
    (∃ j, j < rows.length ∧ rnum = i + j ∧
      norm_scene_id ((rows.getD j []).getD 2 "") = sid ∧ sid ≠ "") ∨
    acc.lookup sid = some rnum := by
  induction rows with
  | nil => intro i acc sid rnum h; exact Or.inr h
  | cons row rest ih =>
    intro i acc sid rnum h
    rw [show (row :: rest).enumFrom i = (i, row) :: rest.enumFrom (i + 1)
      from rfl, List.foldl_cons] at h
    rcases ih (i + 1) (indexStep acc (i, row)) sid rnum h with h' | h'
    · obtain ⟨j, hj, hrnum, hnorm, hne⟩ := h'
      exact Or.inl ⟨j + 1, by simpa using hj, by omega, hnorm, hne⟩
    · unfold indexStep at h'
      by_cases hrow : norm_scene_id ((padRow row MAX_COLS).getD 2 "") ≠ ""
      · rw [if_pos hrow, lookup_dictInsert] at h'
        by_cases hsid : sid = norm_scene_id ((padRow row MAX_COLS).getD 2
            "")
        · rw [if_pos hsid] at h'
          have hri : rnum = i := (Option.some.inj h').symm
          refine Or.inl ⟨0, by simp, by omega, ?_, ?_⟩
          · rw [show (row :: rest).getD 0 [] = row from rfl,
              ← padRow_getD row MAX_COLS 2, hsid]
          · rw [hsid]; exact hrow
        · rw [if_neg hsid] at h'
          exact Or.inr h'
      · rw [if_neg hrow] at h'
        exact Or.inr h'

/-- A key present in the accumulator survives the index fold. -/
theorem fold_preserves_key (rows : List (List String)) :
    ∀ (i : Nat) (acc : List (String × Nat)) (sid : String),
    acc.lookup sid ≠ none →
    ((rows.enumFrom i).foldl indexStep acc).lookup sid ≠ none := by
  induction rows with
  | nil => intro i acc sid h; exact h
  | cons row rest ih =>
    intro i acc sid h
    rw [show (row :: rest).enumFrom i = (i, row) :: rest.enumFrom (i + 1)
      from rfl, List.foldl_cons]
    apply ih
    unfold indexStep
    by_cases hrow : norm_scene_id ((padRow row MAX_COLS).getD 2 "") ≠ ""
    · rw [if_pos hrow, lookup_dictInsert]
      by_cases hsid : sid = norm_scene_id ((padRow row MAX_COLS).getD 2 "")
      · rw [if_pos hsid]; simp
      · rw [if_neg hsid]; exact h
    · rw [if_neg hrow]; exact h

/-- A negative index lookup means no data row carries that id. -/
theorem index_fold_none (rows : List (List String)) :
    ∀ (i : Nat) (acc : List (String × Nat)) (sid : String),
    ((rows.enumFrom i).foldl indexStep acc).lookup sid = none →
    ∀ j, j < rows.length → sid ≠ "" →
      norm_scene_id ((rows.getD j []).getD 2 "") ≠ sid := by
  induction rows with
  | nil => intro i acc sid _ j hj; exact absurd hj (by simp)
  | cons row rest ih =>
    intro i acc sid h j hj hne
    rw [show (row :: rest).enumFrom i = (i, row) :: rest.enumFrom (i + 1)
      from rfl, List.foldl_cons] at h
    cases j with
    | zero =>
      intro hcon
      -- row 0 has this (non-empty) sid, so the step inserted it and the
      -- lookup cannot come back `none`: a dictInsert key survives the
      -- whole fold.
      have hstep : (indexStep acc (i, row)).lookup sid ≠ none := by
        unfold indexStep
        rw [show (row :: rest).getD 0 [] = row from rfl] at hcon
        rw [if_pos (by rw [padRow_getD, hcon]; exact hne),
          lookup_dictInsert, if_pos (by rw [padRow_getD, hcon])]
        simp
      exact absurd h (fold_preserves_key rest (i + 1) _ sid hstep)
    | succ j' =>
      exact ih (i + 1) _ sid h j' (by simpa using hj) hne

/-- `index_fold_some` specialised to `build_sceneid_index`. -/
theorem build_index_some (rows : List (List String)) (sid : String)
    (rnum : Nat) (h : (build_sceneid_index rows).lookup sid = some rnum) :
    2 ≤ rnum ∧ rnum - 2 < rows.length ∧
      norm_scene_id ((rows.getD (rnum - 2) []).getD 2 "") = sid ∧
      sid ≠ "" := by
  rw [build_sceneid_index_eq] at h
  rcases index_fold_some rows 2 [] sid rnum h with h' | h'
  · obtain ⟨j, hj, hrnum, hnorm, hne⟩ := h'
    refine ⟨by omega, by omega, ?_, hne⟩
    rw [show rnum - 2 = j from by omega]
    exact hnorm
  · cases h'

/-- `index_fold_none` specialised to `build_sceneid_index`. -/
theorem build_index_none (rows : List (List String)) (sid : String)
    (h : (build_sceneid_index rows).lookup sid = none) (hne : sid ≠ "") :
    ∀ j, j < rows.length →
      norm_scene_id ((rows.getD j []).getD 2 "") ≠ sid := by
  rw [build_sceneid_index_eq] at h
  intro j hj
  exact index_fold_none rows 2 [] sid h j hj hne

/-- One step of `find_empty_template_rows`'s fold. -/
def freeStep (free : List Nat) (p : Nat × List String) : List Nat :=
  if rowIsFreeTemplate p.2 then free ++ [p.1] else free

theorem find_empty_template_rows_eq (existing_rows : List (List String)) :
    find_empty_template_rows existing_rows =
      (existing_rows.enumFrom 2).foldl freeStep [] := rfl

/-- Every free row number names a data row passing the template
test. -/
theorem free_fold_mem (rows : List (List String)) :
    ∀ (i : Nat) (acc : List Nat) (r : Nat),
    r ∈ (rows.enumFrom i).foldl freeStep acc →
    r ∈ acc ∨ ∃ j, j < rows.length ∧ r = i + j ∧
      rowIsFreeTemplate (rows.getD j []) = true := by
  induction rows with
  | nil => intro i acc r h; exact Or.inl h
  | cons row rest ih =>
    intro i acc r h
    rw [show (row :: rest).enumFrom i = (i, row) :: rest.enumFrom (i + 1)
      from rfl, List.foldl_cons] at h
    rcases ih (i + 1) (freeStep acc (i, row)) r h with h' | h'
    · unfold freeStep at h'
      by_cases hrow : rowIsFreeTemplate row = true
      · rw [if_pos hrow] at h'
        rcases List.mem_append.1 h' with h'' | h''
        · exact Or.inl h''
        · refine Or.inr ⟨0, by simp, ?_, ?_⟩
          · have : r = i := by simpa using h''
            omega
          · exact hrow
      · rw [if_neg hrow] at h'
        exact Or.inl h'
    · obtain ⟨j, hj, hr, hrow⟩ := h'
      exact Or.inr ⟨j + 1, by simpa using hj, by omega, hrow⟩

theorem free_rows_facts (rows : List (List String)) (r : Nat)
    (h : r ∈ find_empty_template_rows rows) :
    2 ≤ r ∧ r - 2 < rows.length ∧
      rowIsFreeTemplate (rows.getD (r - 2) []) = true := by
  rw [find_empty_template_rows_eq] at h
  rcases free_fold_mem rows 2 [] r h with h' | h'
  · cases h'
  · obtain ⟨j, hj, hr, hrow⟩ := h'
    refine ⟨by omega, by omega, ?_⟩
    rw [show r - 2 = j from by omega]
    exact hrow

/-! ## Emptiness of stripped and normalized strings -/

/-- A strip-empty list is all whitespace. -/
theorem stripList_eq_nil (l : List Char) (h : stripList l = []) :
    ∀ c ∈ l, pyIsSpace c = true := by
  unfold stripList at h
  have h1 : (l.dropWhile pyIsSpace).reverse.dropWhile pyIsSpace = [] := by
    have := congrArg List.reverse h
    simpa using this
  rw [List.dropWhile_eq_nil_iff] at h1
  have h2 : l.dropWhile pyIsSpace = [] := by
    cases hd : l.dropWhile pyIsSpace with
    | nil => rfl
    | cons c cs =>
      have hc : pyIsSpace c = false := dropWhile_eq_self_head pyIsSpace c cs
        (by rw [← hd]; exact dropWhile_idem pyIsSpace l)
      have hmem : c ∈ (l.dropWhile pyIsSpace).reverse := by
        rw [hd]; simp
      exact absurd (h1 c hmem) (by simp [hc])
  rw [List.dropWhile_eq_nil_iff] at h2
  exact h2

/-- Whitespace-only character lists split into no words. -/
theorem wsWords_all_space (l : List Char) (h : ∀ c ∈ l, pyIsSpace c = true) :
    wsWords [] l = [] := by
  induction l with
  | nil => rfl
  | cons c cs ih =>
    unfold wsWords
    rw [if_pos (h c (List.mem_cons_self c cs)), if_pos rfl]
    exact ih fun d hd => h d (List.mem_cons_of_mem c hd)

/-- A strip-empty cell normalizes to the empty scene id. -/
theorem norm_scene_id_of_strip_empty (s : String) (h : pyStrip s = "") :
    norm_scene_id s = "" := by
  have hall : ∀ c ∈ s.data, pyIsSpace c = true :=
    stripList_eq_nil s.data (congrArg String.data h)
  set s' : String := ⟨s.data.filter fun c =>
    !(c = ' ' || c = '​' || c = '‎' || c = '‏')⟩ with hs'
  have hall' : ∀ c ∈ (pyStrip s').data, pyIsSpace c = true := by
    intro c hc
    have h1 : c ∈ s'.data := (stripList_sublist s'.data).mem hc
    have h2 : c ∈ s.data := by
      rw [hs'] at h1
      exact (List.filter_sublist _).mem h1
    exact hall c h2
  have hsplit : pySplitWs (pyStrip s') = [] := by
    unfold pySplitWs
    rw [wsWords_all_space _ hall']
    rfl
  unfold norm_scene_id
  show joinSep " " (pySplitWs (pyStrip s')) = ""
  rw [hsplit]
  rfl

/-- A non-empty normalized scene id forces a non-empty strip. -/
theorem strip_ne_of_norm_ne (s : String) (h : norm_scene_id s ≠ "") :
    pyStrip s ≠ "" :=
  fun hc => h (norm_scene_id_of_strip_empty s hc)

/-- A free template row has an empty (normalized) scene id. -/
theorem free_template_sid_empty (row : List String)
    (h : rowIsFreeTemplate row = true) :
    norm_scene_id (row.getD 2 "") = "" := by
  unfold rowIsFreeTemplate at h
  rw [List.all_eq_true] at h
  have h2 : (2, (padRow row MAX_COLS).getD 2 "") ∈
      (padRow row MAX_COLS).enum := by
    rw [List.mem_enum_iff_getElem?]
    have hlen : 2 < (padRow row MAX_COLS).length := by
      unfold padRow MAX_COLS
      simp only [List.length_append, List.length_replicate]
      omega
    rw [List.getElem?_eq_getElem hlen]
    rw [List.getD_eq_getElem _ _ hlen]
  have h3 := h _ h2
  rw [Bool.or_eq_true] at h3
  rcases h3 with h3 | h3
  · simp [IGNORED_TEMPLATE_COLUMNS, ID_INDEX, THUMBNAIL_IMAGE_INDEX,
      TELESAVE_INDEX, QUALITY_INDEX, TELELABEL_INDEX] at h3
  · rw [padRow_getD] at h3
    exact norm_scene_id_of_strip_empty _ (by simpa using h3)

/-! ## Shape of the write batches -/

/-- Every plain write of `updateColumn` targets its row. -/
theorem updateColumn_row (s r c : Nat) (nv : CellValue) (ov : String)
    (links : List (String × String)) :
    ∀ cell ∈ (updateColumn s r c nv ov links).1, cell.row = r := by
  intro cell hcell
  unfold updateColumn at hcell
  split_ifs at hcell <;> simp_all

/-- Every rich request of `updateColumn` carries its column as 0-based
`columnIndex`. -/
theorem updateColumn_rich (s r c : Nat) (nv : CellValue) (ov : String)
    (links : List (String × String)) :
    ∀ req ∈ (updateColumn s r c nv ov links).2,
      req.columnIndex = c ∧ req.rowIndex = r - 1 ∧
        PERFORMER_COLUMNS.contains c = true := by
  intro req hreq
  unfold updateColumn at hreq
  split_ifs at hreq with h1 <;> simp_all [build_performer_rich_text_request]

/-- A column-3 plain write of `updateColumn` is the plain copy of the
new scene-id cell. -/
theorem updateColumn_col3_value (s r c : Nat) (nv : CellValue)
    (ov : String) (links : List (String × String)) :
    ∀ cell ∈ (updateColumn s r c nv ov links).1, cell.col = 3 →
      cell.value = nv := by
  intro cell hcell hcol
  have hc := updateColumn_col s r c nv ov links cell hcell
  have hc2 : c = 2 := by omega
  subst hc2
  unfold updateColumn at hcell
  split_ifs at hcell <;>
    simp_all [DATA18_URL_INDEX, DURATION_INDEX, PERFORMER_COLUMNS]

/-- The rich requests of `update_existing_row` are the concatenation of
the per-column requests. -/
theorem update_existing_row_rich (s r : Nat) (nr : List CellValue)
    (orow : List String) (cols : List Nat)
    (links : List (String × String)) :
    (update_existing_row s r nr orow cols links).2 =
      (cols.map fun c =>
        (updateColumn s r c (nr.getD c none)
          (orow.getD c "") links).2).flatten := by
  induction cols with
  | nil => rfl
  | cons c cs ih =>
    show ((updateColumn s r c (nr.getD c none) (orow.getD c "") links).2 ++
        (update_existing_row s r nr orow cs links).2) = _
    rw [ih]
    simp

/-- Membership facts for the whole update batch. -/
theorem update_cells_facts (s r : Nat) (nr : List CellValue)
    (orow : List String) (cols : List Nat)
    (links : List (String × String)) :
    ∀ cell ∈ (update_existing_row s r nr orow cols links).1,
      cell.row = r ∧ ∃ c ∈ cols, cell.col = c + 1 := by
  intro cell hcell
  rw [update_existing_row_cells] at hcell
  rw [List.mem_flatten] at hcell
  obtain ⟨l, hl, hcl⟩ := hcell
  rw [List.mem_map] at hl
  obtain ⟨c, hc, rfl⟩ := hl
  exact ⟨updateColumn_row s r c _ _ _ cell hcl,
    c, hc, updateColumn_col s r c _ _ _ cell hcl⟩

/-- A column-3 write of the update batch copies the new id cell. -/
theorem update_cells_col3 (s r : Nat) (nr : List CellValue)
    (orow : List String) (cols : List Nat)
    (links : List (String × String)) :
    ∀ cell ∈ (update_existing_row s r nr orow cols links).1,
      cell.col = 3 → cell.value = nr.getD 2 none := by
  intro cell hcell hcol
  rw [update_existing_row_cells] at hcell
  rw [List.mem_flatten] at hcell
  obtain ⟨l, hl, hcl⟩ := hcell
  rw [List.mem_map] at hl
  obtain ⟨c, hc, rfl⟩ := hl
  have hcc := updateColumn_col s r c _ _ _ cell hcl
  have hc2 : c = 2 := by omega
  subst hc2
  exact updateColumn_col3_value s r 2 _ _ _ cell hcl hcol

/-- Rich-request facts for the whole update batch. -/
theorem update_rich_facts (s r : Nat) (nr : List CellValue)
    (orow : List String) (cols : List Nat)
    (links : List (String × String)) :
    ∀ req ∈ (update_existing_row s r nr orow cols links).2,
      (req.columnIndex = 4 ∨ req.columnIndex = 5) ∧
        req.rowIndex = r - 1 := by
  intro req hreq
  rw [update_existing_row_rich] at hreq
  rw [List.mem_flatten] at hreq
  obtain ⟨l, hl, hrl⟩ := hreq
  rw [List.mem_map] at hl
  obtain ⟨c, hc, rfl⟩ := hl
  obtain ⟨h1, h2, h3⟩ := updateColumn_rich s r c _ _ _ req hrl
  refine ⟨?_, h2⟩
  have : c = 4 ∨ c = 5 := by
    simpa [PERFORMER_COLUMNS] using h3
  rcases this with h | h <;> [exact Or.inl (h1.trans h);
    exact Or.inr (h1.trans h)]

/-- Membership facts for a template-row insertion batch. -/
theorem write_new_row_facts (rnum : Nat) (row : List CellValue)
    (tl : Nat) :
    ∀ cell ∈ write_new_row_from_template rnum row tl,
      cell.row = rnum ∧ 1 ≤ cell.col ∧
        (cell.col = 3 → cell.value = row.getD 2 none) := by
  intro cell hcell
  unfold write_new_row_from_template at hcell
  rw [List.mem_filterMap] at hcell
  obtain ⟨p, hp, hval⟩ := hcell
  by_cases hpt : p.1 = tl
  · rw [if_pos hpt] at hval; cases hval
  · rw [if_neg hpt] at hval
    have hcell' : cell = ⟨rnum, p.1 + 1, p.2⟩ := by
      exact (Option.some.inj hval).symm
    subst hcell'
    refine ⟨rfl, Nat.succ_le_succ (Nat.zero_le p.1), ?_⟩
    intro hcol
    have hp13 : p.1 + 1 = 3 := hcol
    have hp1 : p.1 = 2 := by omega
    rw [List.mem_enum_iff_getElem?] at hp
    show p.2 = row.getD 2 none
    rw [hp1] at hp
    rw [List.getD_eq_getElem?_getD, hp]
    rfl

/-! ## Shape of a whole run's batch -/

/-- `normSceneIdCell` through the write that clears/copies a cell. -/
theorem normSceneIdCell_orEmpty (v : CellValue) :
    norm_scene_id (orEmpty v) = normSceneIdCell v := by
  cases v <;> rfl

/-- Bounds for every plain write of a run. -/
theorem processScenes_cell_bounds (sheet_id : Nat)
    (scene_index : List (String × Nat)) (existing_rows : List (List String))
    (free_rows : List Nat)
    (hidx : ∀ sid rnum, scene_index.lookup sid = some rnum → 2 ≤ rnum)
    (hfree : ∀ r ∈ free_rows, 2 ≤ r) :
    ∀ (rlist : List (List CellValue × List (String × String)))
      (free_idx : Nat),
    ∀ cell ∈ (processScenes sheet_id scene_index existing_rows free_rows
        rlist free_idx).batch_cells,
      2 ≤ cell.row ∧ 1 ≤ cell.col := by
  intro rlist
  induction rlist with
  | nil => intro fi cell hcell; cases hcell
  | cons rl rest ih =>
    intro fi cell hcell
    obtain ⟨row, links⟩ := rl
    simp only [processScenes] at hcell
    cases hlook : scene_index.lookup (normSceneIdCell (row.getD 2 none))
      with
    | some rnum =>
      rw [hlook] at hcell
      rcases List.mem_append.1 hcell with h | h
      · obtain ⟨hrow, c, hc, hcol⟩ := update_cells_facts sheet_id rnum row
          (existing_rows.getD (rnum - 2) []) UPDATEABLE_COLUMNS links cell h
        exact ⟨hrow ▸ hidx _ _ hlook, by omega⟩
      · exact ih fi cell h
    | none =>
      rw [hlook] at hcell
      by_cases hfi : fi < free_rows.length
      · rw [if_pos hfi] at hcell
        rcases List.mem_append.1 hcell with h | h
        · obtain ⟨hrow, hcol, _⟩ := write_new_row_facts
            (free_rows.getD fi 0) row 22 cell h
          refine ⟨?_, hcol⟩
          rw [hrow]
          exact hfree _ (List.getD_eq_getElem free_rows 0 hfi ▸
            free_rows.getElem_mem hfi)
        · exact ih (fi + 1) cell h
      · rw [if_neg hfi] at hcell
        exact ih fi cell hcell

/-- Provenance of every column-3 (scene-id) write of a run: it copies
some candidate's id cell into either that id's indexed row or a free
template row (the id being absent from the index). -/
theorem processScenes_col3 (sheet_id : Nat)
    (scene_index : List (String × Nat)) (existing_rows : List (List String))
    (free_rows : List Nat) :
    ∀ (rlist : List (List CellValue × List (String × String)))
      (free_idx : Nat),
    ∀ cell ∈ (processScenes sheet_id scene_index existing_rows free_rows
        rlist free_idx).batch_cells,
      cell.col = 3 →
      ∃ rl ∈ rlist, cell.value = rl.1.getD 2 none ∧
        (scene_index.lookup (normSceneIdCell (rl.1.getD 2 none)) =
            some cell.row ∨
          (scene_index.lookup (normSceneIdCell (rl.1.getD 2 none)) = none ∧
            cell.row ∈ free_rows)) := by
  intro rlist
  induction rlist with
  | nil => intro fi cell hcell; cases hcell
  | cons rl rest ih =>
    intro fi cell hcell hcol
    obtain ⟨row, links⟩ := rl
    simp only [processScenes] at hcell
    cases hlook : scene_index.lookup (normSceneIdCell (row.getD 2 none))
      with
    | some rnum =>
      rw [hlook] at hcell
      rcases List.mem_append.1 hcell with h | h
      · refine ⟨(row, links), List.mem_cons_self _ _, ?_, ?_⟩
        · exact update_cells_col3 sheet_id rnum row _ UPDATEABLE_COLUMNS
            links cell h hcol
        · left
          rw [(update_cells_facts sheet_id rnum row _ UPDATEABLE_COLUMNS
            links cell h).1]
          exact hlook
      · obtain ⟨rl2, hrl2, hv, hcase⟩ := ih fi cell h hcol
        exact ⟨rl2, List.mem_cons_of_mem _ hrl2, hv, hcase⟩
    | none =>
      rw [hlook] at hcell
      by_cases hfi : fi < free_rows.length
      · rw [if_pos hfi] at hcell
        rcases List.mem_append.1 hcell with h | h
        · obtain ⟨hrow, _, hval⟩ := write_new_row_facts
            (free_rows.getD fi 0) row 22 cell h
          refine ⟨(row, links), List.mem_cons_self _ _, hval hcol, ?_⟩
          right
          refine ⟨hlook, ?_⟩
          rw [hrow]
          exact List.getD_eq_getElem free_rows 0 hfi ▸
            free_rows.getElem_mem hfi
        · obtain ⟨rl2, hrl2, hv, hcase⟩ := ih (fi + 1) cell h hcol
          exact ⟨rl2, List.mem_cons_of_mem _ hrl2, hv, hcase⟩
      · rw [if_neg hfi] at hcell
        obtain ⟨rl2, hrl2, hv, hcase⟩ := ih fi cell hcell hcol
        exact ⟨rl2, List.mem_cons_of_mem _ hrl2, hv, hcase⟩

/-- Under distinct candidate ids, all column-3 writes carrying the same
normalized id target the same row. -/
theorem processScenes_col3_inj (sheet_id : Nat)
    (scene_index : List (String × Nat)) (existing_rows : List (List String))
    (free_rows : List Nat) :
    ∀ (rlist : List (List CellValue × List (String × String)))
      (free_idx : Nat),
    (rlist.map fun rl => normSceneIdCell (rl.1.getD 2 none)).Nodup →
    ∀ c1 ∈ (processScenes sheet_id scene_index existing_rows free_rows
        rlist free_idx).batch_cells, c1.col = 3 →
    ∀ c2 ∈ (processScenes sheet_id scene_index existing_rows free_rows
        rlist free_idx).batch_cells, c2.col = 3 →
      normSceneIdCell c1.value = normSceneIdCell c2.value →
      c1.row = c2.row := by
  intro rlist
  induction rlist with
  | nil => intro fi _ c1 hc1; cases hc1
  | cons rl rest ih =>
    intro fi hnd c1 hc1 hcol1 c2 hc2 hcol2 heq
    obtain ⟨row, links⟩ := rl
    rw [List.map_cons, List.nodup_cons] at hnd
    simp only [processScenes] at hc1 hc2
    cases hlook : scene_index.lookup (normSceneIdCell (row.getD 2 none))
      with
    | some rnum =>
      rw [hlook] at hc1 hc2
      rcases List.mem_append.1 hc1 with h1 | h1 <;>
        rcases List.mem_append.1 hc2 with h2 | h2
      · rw [(update_cells_facts sheet_id rnum row _ UPDATEABLE_COLUMNS
            links c1 h1).1,
          (update_cells_facts sheet_id rnum row _ UPDATEABLE_COLUMNS
            links c2 h2).1]
      · exfalso
        have hv1 : c1.value = row.getD 2 none :=
          update_cells_col3 sheet_id rnum row _ UPDATEABLE_COLUMNS links
            c1 h1 hcol1
        obtain ⟨rl2, hrl2, hv2, _⟩ := processScenes_col3 sheet_id
          scene_index existing_rows free_rows rest fi c2 h2 hcol2
        apply hnd.1
        rw [List.mem_map]
        refine ⟨rl2, hrl2, ?_⟩
        rw [← hv2, ← heq, hv1]
      · exfalso
        have hv2 : c2.value = row.getD 2 none :=
          update_cells_col3 sheet_id rnum row _ UPDATEABLE_COLUMNS links
            c2 h2 hcol2
        obtain ⟨rl1, hrl1, hv1, _⟩ := processScenes_col3 sheet_id
          scene_index existing_rows free_rows rest fi c1 h1 hcol1
        apply hnd.1
        rw [List.mem_map]
        refine ⟨rl1, hrl1, ?_⟩
        rw [← hv1, heq, hv2]
      · exact ih fi hnd.2 c1 h1 hcol1 c2 h2 hcol2 heq
    | none =>
      rw [hlook] at hc1 hc2
      by_cases hfi : fi < free_rows.length
      · rw [if_pos hfi] at hc1 hc2
        rcases List.mem_append.1 hc1 with h1 | h1 <;>
          rcases List.mem_append.1 hc2 with h2 | h2
        · rw [(write_new_row_facts (free_rows.getD fi 0) row 22 c1 h1).1,
            (write_new_row_facts (free_rows.getD fi 0) row 22 c2 h2).1]
        · exfalso
          have hv1 : c1.value = row.getD 2 none :=
            (write_new_row_facts (free_rows.getD fi 0) row 22 c1 h1).2.2
              hcol1
          obtain ⟨rl2, hrl2, hv2, _⟩ := processScenes_col3 sheet_id
            scene_index existing_rows free_rows rest (fi + 1) c2 h2 hcol2
          apply hnd.1
          rw [List.mem_map]
          refine ⟨rl2, hrl2, ?_⟩
          rw [← hv2, ← heq, hv1]
        · exfalso
          have hv2 : c2.value = row.getD 2 none :=
            (write_new_row_facts (free_rows.getD fi 0) row 22 c2 h2).2.2
              hcol2
          obtain ⟨rl1, hrl1, hv1, _⟩ := processScenes_col3 sheet_id
            scene_index existing_rows free_rows rest (fi + 1) c1 h1 hcol1
          apply hnd.1
          rw [List.mem_map]
          refine ⟨rl1, hrl1, ?_⟩
          rw [← hv1, heq, hv2]
        · exact ih (fi + 1) hnd.2 c1 h1 hcol1 c2 h2 hcol2 heq
      · rw [if_neg hfi] at hc1 hc2
        exact ih fi hnd.2 c1 hc1 hcol1 c2 hc2 hcol2 heq

/-- Every rich-text request of a run targets a performer column (0-based
4 or 5). -/
theorem processScenes_rich (sheet_id : Nat)
    (scene_index : List (String × Nat)) (existing_rows : List (List String))
    (free_rows : List Nat) :
    ∀ (rlist : List (List CellValue × List (String × String)))
      (free_idx : Nat),
    ∀ req ∈ (processScenes sheet_id scene_index existing_rows free_rows
        rlist free_idx).rich_text_requests,
      req.columnIndex = 4 ∨ req.columnIndex = 5 := by
  intro rlist
  induction rlist with
  | nil => intro fi req hreq; cases hreq
  | cons rl rest ih =>
    intro fi req hreq
    obtain ⟨row, links⟩ := rl
    simp only [processScenes] at hreq
    cases hlook : scene_index.lookup (normSceneIdCell (row.getD 2 none))
      with
    | some rnum =>
      rw [hlook] at hreq
      rcases List.mem_append.1 hreq with h | h
      · exact (update_rich_facts sheet_id rnum row _ UPDATEABLE_COLUMNS
          links req h).1
      · exact ih fi req h
    | none =>
      rw [hlook] at hreq
      by_cases hfi : fi < free_rows.length
      · rw [if_pos hfi] at hreq
        exact ih (fi + 1) req hreq
      · rw [if_neg hfi] at hreq
        exact ih fi req hreq

/-! ## The scene-id column of a sheet snapshot -/

/-- The normalized scene id sitting in 1-based row `r` of a grid
snapshot (`""` for the header row, free rows and rows out of range). -/
def sidAt (g : List (List String)) (r : Nat) : String :=
  norm_scene_id (getCell g r 3)

/-- The spec's invariant: identifier values are unique among occupied
rows. -/
def SidsUnique (g : List (List String)) : Prop :=
  ∀ r1 r2 : Nat, 2 ≤ r1 → 2 ≤ r2 → r1 ≠ r2 → sidAt g r1 ≠ "" →
    sidAt g r1 ≠ sidAt g r2

theorem drop_one_getD {α : Type} (l : List α) (j : Nat) (d : α) :
    (l.drop 1).getD j d = l.getD (j + 1) d := by
  cases l with
  | nil => cases j <;> rfl
  | cons a as => simp [List.getD_cons_succ]

/-- Reading the id column through `normalize_rows`. -/
theorem normalize_rows_getD2 (sheet : List (List String)) (j : Nat) :
    ((normalize_rows sheet).getD j []).getD 2 "" =
      ((sheet.drop 1).getD j []).getD 2 "" := by
  unfold normalize_rows
  generalize sheet.drop 1 = l
  induction l generalizing j with
  | nil => cases j <;> rfl
  | cons a as ih =>
    cases j with
    | zero =>
      simp only [List.map_cons, List.getD_cons_zero]
      exact padRow_getD a MAIN_MAX_COLS 2
    | succ n =>
      simp only [List.map_cons, List.getD_cons_succ]
      exact ih n

/-- `sidAt` of the original snapshot through the per-run row list. -/
theorem sidAt_eq_rows (sheet : List (List String)) (r : Nat) (hr : 2 ≤ r) :
    sidAt sheet r =
      norm_scene_id (((normalize_rows sheet).getD (r - 2) []).getD 2 "")
    := by
  unfold sidAt getCell
  rw [normalize_rows_getD2, drop_one_getD]
  have h21 : r - 2 + 1 = r - 1 := by omega
  rw [h21]


/-! ## Claim C5 — scene-id uniqueness across a run -/

/-- A lookup hit names an occupied row carrying exactly that id. -/
theorem sid_present (sheet : List (List String)) (sid : String) (rnum : Nat)
    (h : (build_sceneid_index (normalize_rows sheet)).lookup sid =
      some rnum) :
    2 ≤ rnum ∧ sidAt sheet rnum = sid := by
  obtain ⟨h2, _, hnorm, _⟩ := build_index_some _ _ _ h
  exact ⟨h2, by rw [sidAt_eq_rows sheet rnum h2]; exact hnorm⟩

/-- A lookup miss means no occupied row carries that (non-empty) id. -/
theorem sid_absent (sheet : List (List String)) (sid : String)
    (h : (build_sceneid_index (normalize_rows sheet)).lookup sid = none)
    (hne : sid ≠ "") :
    ∀ r, 2 ≤ r → sidAt sheet r ≠ sid := by
  intro r hr
  rw [sidAt_eq_rows sheet r hr]
  by_cases hlt : r - 2 < (normalize_rows sheet).length
  · exact build_index_none _ _ h hne _ hlt
  · rw [show (normalize_rows sheet).getD (r - 2) [] = [] from
      List.getD_eq_default _ _ (by omega)]
    have h0 : norm_scene_id (([] : List String).getD 2 "") = "" := rfl
    exact fun hc => hne (hc.symm.trans h0)

/-- One run over a prepared candidate list: index and free-row list are
rebuilt from the snapshot exactly as `update_google_sheet_from_file`
does (`runUpload` is this applied to the flattened scenes). -/
def runOn (sheet : List (List String)) (sheet_id : Nat)
    (rlist : List (List CellValue × List (String × String))) : RunOutput :=
  processScenes sheet_id (build_sceneid_index (normalize_rows sheet))
    (normalize_rows sheet) (find_empty_template_rows (normalize_rows sheet))
    rlist 0

/-- After applying a run's writes, each row's id either survived or was
freshly written by a column-3 insert into a free template row whose id
was absent from the index. -/
theorem sid_after_run (sheet : List (List String)) (sheet_id : Nat)
    (rlist : List (List CellValue × List (String × String))) (r : Nat)
    (hr : 2 ≤ r) :
    sidAt (applyRun sheet (runOn sheet sheet_id rlist)) r = sidAt sheet r ∨
    ∃ cell ∈ (runOn sheet sheet_id rlist).batch_cells,
      cell.row = r ∧ cell.col = 3 ∧
      sidAt (applyRun sheet (runOn sheet sheet_id rlist)) r =
        normSceneIdCell cell.value ∧
      (build_sceneid_index (normalize_rows sheet)).lookup
        (normSceneIdCell cell.value) = none ∧
      r ∈ find_empty_template_rows (normalize_rows sheet) := by
  have hbounds : ∀ cell ∈ (runOn sheet sheet_id rlist).batch_cells,
      2 ≤ cell.row ∧ 1 ≤ cell.col :=
    processScenes_cell_bounds sheet_id _ _ _
      (fun sid rnum h => (build_index_some _ _ _ h).1)
      (fun r' hr' => (free_rows_facts _ _ hr').1) rlist 0
  have hrich : ∀ req ∈ (runOn sheet sheet_id rlist).rich_text_requests,
      req.columnIndex + 1 ≠ 3 := by
    intro req hreq
    rcases processScenes_rich sheet_id _ _ _ rlist 0 req hreq with h | h <;>
      omega
  have hcell3 : getCell (applyRun sheet (runOn sheet sheet_id rlist)) r 3 =
      getCell ((runOn sheet sheet_id rlist).batch_cells.foldl
        applyCellWrite sheet) r 3 := by
    unfold applyRun
    exact getCell_foldl_rich_untouched _ _ r 3 (by omega) (by omega) hrich
  rcases getCell_foldl_cells_mem (runOn sheet sheet_id rlist).batch_cells
      sheet r 3 (by omega) (by omega)
      (fun cell hc =>
        ⟨by have := (hbounds cell hc).1; omega, (hbounds cell hc).2⟩)
    with h | h
  · left
    unfold sidAt
    rw [hcell3, h]
  · obtain ⟨cell, hc, hrow, hcol, hval⟩ := h
    have hsid' : sidAt (applyRun sheet (runOn sheet sheet_id rlist)) r =
        normSceneIdCell cell.value := by
      unfold sidAt
      rw [hcell3, hval]
      exact normSceneIdCell_orEmpty cell.value
    obtain ⟨rl, hrl, hv, hcase⟩ := processScenes_col3 sheet_id _ _ _
      rlist 0 cell hc hcol
    rcases hcase with hhit | ⟨hnone, hfree⟩
    · left
      rw [hsid', hv, ← hrow]
      exact (sid_present sheet _ _ hhit).2.symm
    · right
      refine ⟨cell, hc, hrow, hcol, hsid', ?_, hrow ▸ hfree⟩
      rw [hv]
      exact hnone

/-- The candidate id cell of a flattened, padded scene row is the raw
scene id. -/
theorem candidate_sid (scene : Scene) (pornstar : String)
    (mp tp : List String) (sm : List (String × String)) (hl : Bool) :
    normSceneIdCell ((padCandidate (flatten_scene_to_row_pair scene pornstar
        mp tp sm hl (fun x => x)).1).getD 2 none) =
      norm_scene_id scene.scene_id := rfl

/-- C5 (amended).  A run started from a sheet whose occupied rows carry
pairwise-distinct non-empty normalized scene ids keeps that invariant,
PROVIDED the run's own candidate scenes also carry pairwise-distinct
normalized ids: matched rows get back the id they already carry, ids
absent from the index go only to free template rows (whose id cell was
blank), and distinct fresh ids land in distinct free rows.  Without the
proviso the claim fails — see the counterexample below. -/
theorem run_preserves_sid_uniqueness (scenes : List Scene)
    (pornstar : String) (male_performers trans_performers : List String)
    (site_to_network_map : List (String × String))
    (hyperlinks_enabled : Bool) (sheet : List (List String))
    (sheet_id : Nat)
    (hsheet : SidsUnique sheet)
    (hscenes : (scenes.map fun sc => norm_scene_id sc.scene_id).Nodup) :
    SidsUnique (applyRun sheet (runUpload scenes pornstar male_performers
      trans_performers site_to_network_map hyperlinks_enabled sheet
      sheet_id)) := by
  have hrun : runUpload scenes pornstar male_performers trans_performers
      site_to_network_map hyperlinks_enabled sheet sheet_id =
      runOn sheet sheet_id (scenes.map fun scene =>
        let p := flatten_scene_to_row_pair scene pornstar male_performers
          trans_performers site_to_network_map hyperlinks_enabled
          (fun x => x)
        (padCandidate p.1, p.2)) := rfl
  rw [hrun]
  have hnd : ((scenes.map fun scene =>
      let p := flatten_scene_to_row_pair scene pornstar male_performers
        trans_performers site_to_network_map hyperlinks_enabled
        (fun x => x)
      (padCandidate p.1, p.2)).map
        fun rl => normSceneIdCell (rl.1.getD 2 none)).Nodup := by
    rw [List.map_map]
    have he : ((fun rl : List CellValue × List (String × String) =>
        normSceneIdCell (rl.1.getD 2 none)) ∘
          fun scene =>
            let p := flatten_scene_to_row_pair scene pornstar
              male_performers trans_performers site_to_network_map
              hyperlinks_enabled (fun x => x)
            (padCandidate p.1, p.2)) =
          fun sc => norm_scene_id sc.scene_id :=
      funext fun sc => candidate_sid sc pornstar male_performers
        trans_performers site_to_network_map hyperlinks_enabled
    rw [he]
    exact hscenes
  intro r1 r2 hr1 hr2 hne hne1
  rcases sid_after_run sheet sheet_id _ r1 hr1 with h1 |
    ⟨c1, hc1, hrow1, hcol1, hval1, hnone1, _⟩ <;>
    rcases sid_after_run sheet sheet_id _ r2 hr2 with h2 |
      ⟨c2, hc2, hrow2, hcol2, hval2, hnone2, _⟩
  · rw [h1, h2]
    refine hsheet r1 r2 hr1 hr2 hne ?_
    rw [← h1]
    exact hne1
  · rw [h1, hval2]
    intro hc
    have hx : sidAt sheet r1 ≠ "" := by rw [← h1]; exact hne1
    exact sid_absent sheet _ hnone2 (fun h0 => hx (hc.trans h0)) r1 hr1 hc
  · rw [hval1, h2]
    intro hc
    have hx : normSceneIdCell c1.value ≠ "" := by rw [← hval1]; exact hne1
    exact sid_absent sheet _ hnone1 hx r2 hr2 hc.symm
  · rw [hval1, hval2]
    intro hc
    refine hne ?_
    rw [← hrow1, ← hrow2]
    exact processScenes_col3_inj sheet_id _ _ _ _ 0 hnd c1 hc1 hcol1
      c2 hc2 hcol2 hc

/-- Every row of the empty snapshot has an empty id. -/
theorem sidAt_nil (r : Nat) : sidAt ([] : List (List String)) r = "" := by
  unfold sidAt getCell
  rw [show (([] : List (List String)).getD (r - 1) []) = [] from
    List.getD_eq_default _ _ (Nat.zero_le _)]
  rfl

/-- The empty snapshot trivially satisfies the invariant. -/
theorem sidsUnique_nil : SidsUnique ([] : List (List String)) :=
  fun r1 _ _ _ _ hne1 => absurd (sidAt_nil r1) hne1

/-- A header row and two blank (free-template) data rows. -/
def dupSheet : List (List String) := [[], [], []]

/-- Two distinct candidate scenes sharing one scene id. -/
def dupScene1 : Scene :=
  { scene_id := "dup", scene_title := "first take" }

def dupScene2 : Scene :=
  { scene_id := "dup", scene_title := "second take" }

theorem dupSheet_all_empty (r : Nat) (hr : 2 ≤ r) :
    sidAt dupSheet r = "" := by
  by_cases h4 : r < 4
  · interval_cases r <;> decide
  · unfold sidAt getCell
    rw [show dupSheet.getD (r - 1) [] = [] from
      List.getD_eq_default _ _ (by unfold dupSheet; simp; omega)]
    rfl

/-- C5, counterexample.  `update_google_sheet_from_file` never refreshes
`scene_index` while inserting, so two candidates sharing a normalized id
that is absent from the index are inserted into two distinct free
template rows: after the run rows 2 and 3 both carry the id `"dup"`,
breaking the uniqueness invariant the sheet satisfied before. -/
theorem duplicate_candidates_break_uniqueness :
    SidsUnique dupSheet ∧
    sidAt (applyRun dupSheet (runUpload [dupScene1, dupScene2] "P" [] []
      [] false dupSheet 7)) 2 =
      sidAt (applyRun dupSheet (runUpload [dupScene1, dupScene2] "P" [] []
        [] false dupSheet 7)) 3 ∧
    sidAt (applyRun dupSheet (runUpload [dupScene1, dupScene2] "P" [] []
      [] false dupSheet 7)) 2 ≠ "" ∧
    ¬ SidsUnique (applyRun dupSheet (runUpload [dupScene1, dupScene2] "P"
      [] [] [] false dupSheet 7)) := by
  refine ⟨?_, by decide, by decide, ?_⟩
  · exact fun r1 _ hr1 _ _ hne1 => absurd (dupSheet_all_empty r1 hr1) hne1
  · intro h
    exact h 2 3 (by omega) (by omega) (by omega) (by decide) (by decide)

/-- C5, witness for the amended theorem: one fresh-id scene uploaded
into the empty snapshot — the invariant holds before and after. -/
theorem run_preserves_sid_uniqueness_witness :
    SidsUnique ([] : List (List String)) ∧
    ([dupScene1].map fun sc => norm_scene_id sc.scene_id).Nodup ∧
    SidsUnique (applyRun [] (runUpload [dupScene1] "P" [] [] [] false []
      0)) :=
  ⟨sidsUnique_nil, by decide,
    run_preserves_sid_uniqueness [dupScene1] "P" [] [] [] false [] 0
      sidsUnique_nil (by decide)⟩


/-! ## Claim C4 — idempotence of the second pass -/

/-- Union with an already-included list changes nothing. -/
theorem sortedDedup_append_subset (l m : List String)
    (h : ∀ x ∈ m, x ∈ l) :
    sortedDedup (sortedDedup l ++ m) = sortedDedup l := by
  refine sorted_eq_of_mem_iff (sortedDedup_sorted _) (sortedDedup_sorted _)
    fun a => ?_
  rw [sortedDedup_mem, List.mem_append, sortedDedup_mem]
  constructor
  · rintro (h1 | h1)
    · exact h1
    · exact h a h1
  · exact Or.inl

/-- Re-merging a merged URL cell with the unchanged scraped value is a
no-op. -/
theorem merge_urls_absorb (a b : String) :
    merge_urls (merge_urls a b) b = merge_urls a b := by
  show joinSep "\n" (sortedDedup (cleanLines (merge_urls a b) ++
      cleanLines b)) = _
  rw [cleanLines_merge,
    sortedDedup_append_subset _ _ fun x hx => List.mem_append.2 (Or.inr hx)]
  rfl

/-- The value a cell holds once the writes `updateColumn` emitted for it
are applied: a plain write sets the cell (a `None` clears it), a
rich-text replacement renders some text (`richText`), no write leaves
the old value. -/
def colAfter (s r c : Nat) (nv : CellValue) (ov : String)
    (links : List (String × String)) (richText : String) : String :=
  let w := updateColumn s r c nv ov links
  if w.2 = [] then w.1.foldl (fun _ cell => orEmpty cell.value) ov
  else richText

/-- The performer branch of `updateColumn`. -/
theorem updateColumn_perf (s r c : Nat) (v : String) (ov : String)
    (links : List (String × String)) (hc : c = 4 ∨ c = 5)
    (hv : pyStrip v ≠ "") :
    updateColumn s r c (some v) ov links =
      ([], [build_performer_rich_text_request s r (c + 1) v links]) := by
  rcases hc with rfl | rfl <;>
    simp [updateColumn, PERFORMER_COLUMNS, orEmpty, hv]

/-- The duration branch of `updateColumn`. -/
theorem updateColumn_duration (s r : Nat) (nv : CellValue) (ov : String)
    (links : List (String × String)) :
    updateColumn s r DURATION_INDEX nv ov links =
      (if pyStrip ov ≠ "" then []
       else if pyStrip (pyStr nv) ≠ "" then [⟨r, 16, nv⟩]
       else [], []) := by
  simp [updateColumn, PERFORMER_COLUMNS, DURATION_INDEX]

/-- The URL-merge branch of `updateColumn`, as a whole-pair equation. -/
theorem updateColumn_21_pair (s r : Nat) (nv : CellValue) (ov : String)
    (links : List (String × String)) :
    updateColumn s r 21 nv ov links =
      (if merge_urls ov (pyStr nv) ≠ ov then
        [⟨r, 22, some (merge_urls ov (pyStr nv))⟩] else [], []) := by
  simp [updateColumn, PERFORMER_COLUMNS, DURATION_INDEX, DATA18_URL_INDEX]

/-- The plain compare-and-copy branch of `updateColumn`. -/
theorem updateColumn_default (s r c : Nat) (nv : CellValue) (ov : String)
    (links : List (String × String))
    (hP : (c ≠ 4 ∧ c ≠ 5) ∨
      nv = none ∨ ∃ v, nv = some v ∧ pyStrip v = "")
    (h15 : c ≠ DURATION_INDEX) (h21 : c ≠ DATA18_URL_INDEX) :
    updateColumn s r c nv ov links =
      (if orEmpty nv ≠ ov then [⟨r, c + 1, nv⟩] else [], []) := by
  rcases hP with ⟨h4, h5⟩ | h | ⟨v, rfl, hv⟩
  · simp [updateColumn, PERFORMER_COLUMNS, h4, h5, h15, h21]
  · subst h
    simp [updateColumn, h15, h21]
  · simp [updateColumn, hv, h15, h21]

/-- After a default-branch write is applied the cell holds the new
value. -/
theorem colAfter_default (s r c : Nat) (nv : CellValue)
    (ov richText : String) (links : List (String × String))
    (hd : updateColumn s r c nv ov links =
      (if orEmpty nv ≠ ov then [⟨r, c + 1, nv⟩] else [], [])) :
    colAfter s r c nv ov links richText = orEmpty nv := by
  unfold colAfter
  rw [hd]
  by_cases h : orEmpty nv ≠ ov
  · rw [if_pos h]
    rfl
  · rw [if_neg h]
    simp only [List.foldl_nil]
    exact (not_not.1 h).symm

/-- One column of the update loop, run a second time against the value
its own first-pass writes produced, emits no plain cell write (whatever
text the rich-text replacement rendered, and whatever performer map the
second pass carries). -/
theorem updateColumn_second_empty (s r c : Nat) (nv : CellValue)
    (ov richText : String) (links links2 : List (String × String))
    (h15 : c = DURATION_INDEX → nv ≠ none) :
    (updateColumn s r c nv (colAfter s r c nv ov links richText)
        links2).1 = [] := by
  by_cases hrich : (c = 4 ∨ c = 5) ∧ ∃ v, nv = some v ∧ pyStrip v ≠ ""
  · obtain ⟨hc, v, hveq, hv⟩ := hrich
    subst hveq
    rw [updateColumn_perf s r c v _ links2 hc hv]
  · by_cases hc15 : c = DURATION_INDEX
    · subst hc15
      rcases Option.ne_none_iff_exists'.1 (h15 rfl) with ⟨v, rfl⟩
      by_cases h1 : pyStrip ov ≠ ""
      · have hA : colAfter s r DURATION_INDEX (some v) ov links richText
            = ov := by
          unfold colAfter
          rw [updateColumn_duration, if_pos h1]
          rfl
        rw [hA, updateColumn_duration, if_pos h1]
      · by_cases h2 : pyStrip v ≠ ""
        · have hA : colAfter s r DURATION_INDEX (some v) ov links richText
              = v := by
            unfold colAfter
            rw [updateColumn_duration, if_neg h1,
              if_pos (show pyStrip (pyStr (some v)) ≠ "" from h2)]
            rfl
          rw [hA, updateColumn_duration, if_pos h2]
        · have hA : colAfter s r DURATION_INDEX (some v) ov links richText
              = ov := by
            unfold colAfter
            rw [updateColumn_duration, if_neg h1,
              if_neg (show ¬pyStrip (pyStr (some v)) ≠ "" from h2)]
            rfl
          rw [hA, updateColumn_duration, if_neg h1,
            if_neg (show ¬pyStrip (pyStr (some v)) ≠ "" from h2)]
    · by_cases hc21 : c = DATA18_URL_INDEX
      · have hc21' : c = 21 := hc21
        subst hc21'
        have hA : colAfter s r 21 nv ov links richText =
            merge_urls ov (pyStr nv) := by
          unfold colAfter
          rw [updateColumn_21_pair]
          by_cases h1 : merge_urls ov (pyStr nv) ≠ ov
          · rw [if_pos h1]
            rfl
          · rw [if_neg h1]
            simp only [List.foldl_nil]
            exact (not_not.1 h1).symm
        rw [hA, updateColumn_21,
          if_neg (by rw [merge_urls_absorb]; exact not_ne_iff.2 rfl)]
      · have hP : (c ≠ 4 ∧ c ≠ 5) ∨ nv = none ∨
            ∃ v, nv = some v ∧ pyStrip v = "" := by
          by_cases hc45 : c = 4 ∨ c = 5
          · right
            cases hnv : nv with
            | none => exact Or.inl rfl
            | some v =>
              right
              refine ⟨v, rfl, ?_⟩
              by_contra hsv
              exact hrich ⟨hc45, v, hnv, hsv⟩
          · exact Or.inl ⟨fun h => hc45 (Or.inl h), fun h => hc45 (Or.inr h)⟩
        have hA := colAfter_default s r c nv ov richText links
          (updateColumn_default s r c nv ov links hP hc15 hc21)
        rw [hA, updateColumn_default s r c nv _ links2 hP hc15 hc21,
          if_neg (not_ne_iff.2 rfl)]

/-- A column whose cell already holds the candidate's value (a fresh
template insertion) emits no plain write, provided the duration cell is
a real value and the URL cell is canonically merged. -/
theorem updateColumn_own_value_empty (s r c : Nat) (nv : CellValue)
    (links : List (String × String))
    (h15 : c = DURATION_INDEX → nv ≠ none)
    (h21 : c = DATA18_URL_INDEX → ∃ u, nv = some u ∧
      merge_urls u u = u) :
    (updateColumn s r c nv (orEmpty nv) links).1 = [] := by
  by_cases hrich : (c = 4 ∨ c = 5) ∧ ∃ v, nv = some v ∧ pyStrip v ≠ ""
  · obtain ⟨hc, v, hveq, hv⟩ := hrich
    subst hveq
    rw [updateColumn_perf s r c v _ links hc hv]
  · by_cases hc15 : c = DURATION_INDEX
    · subst hc15
      rcases Option.ne_none_iff_exists'.1 (h15 rfl) with ⟨v, rfl⟩
      rw [updateColumn_duration]
      by_cases h1 : pyStrip v ≠ ""
      · rw [if_pos (show pyStrip (orEmpty (some v)) ≠ "" from h1)]
      · rw [if_neg (show ¬pyStrip (orEmpty (some v)) ≠ "" from h1),
          if_neg (show ¬pyStrip (pyStr (some v)) ≠ "" from h1)]
    · by_cases hc21 : c = DATA18_URL_INDEX
      · have hc21' : c = 21 := hc21
        subst hc21'
        obtain ⟨u, rfl, hu⟩ := h21 rfl
        rw [updateColumn_21, if_neg (show ¬merge_urls (orEmpty (some u))
          (pyStr (some u)) ≠ orEmpty (some u) from by
            show ¬merge_urls u u ≠ u
            rw [hu]
            exact not_ne_iff.2 rfl)]
      · have hP : (c ≠ 4 ∧ c ≠ 5) ∨ nv = none ∨
            ∃ v, nv = some v ∧ pyStrip v = "" := by
          by_cases hc45 : c = 4 ∨ c = 5
          · right
            cases hnv : nv with
            | none => exact Or.inl rfl
            | some v =>
              right
              refine ⟨v, rfl, ?_⟩
              by_contra hsv
              exact hrich ⟨hc45, v, hnv, hsv⟩
          · exact Or.inl ⟨fun h => hc45 (Or.inl h), fun h => hc45 (Or.inr h)⟩
        rw [updateColumn_default s r c nv _ links hP hc15 hc21,
          if_neg (not_ne_iff.2 rfl)]

/-- C4 (amended).  Once the writes a row received are applied, a second
pass over that row emits zero plain cell writes: for a matched row each
updateable column's post-write value (`colAfter`, with the rich-text
replacement rendering arbitrary text) is a fixed point of the column
rule, and likewise for a row freshly written from a template provided
its duration cell is a real value and its URL cell is already in
canonical merged form.  The second pass is NOT request-free: the
performer columns re-emit their rich-text replacement whenever the new
value is non-blank — see the counterexample. -/
theorem second_pass_no_plain_cell_writes (s r : Nat)
    (new_row : List CellValue) (old_row upd_row ins_row : List String)
    (links links2 : List (String × String)) (richTexts : Nat → String)
    (h15 : new_row.getD DURATION_INDEX none ≠ none)
    (h21 : ∃ u, new_row.getD DATA18_URL_INDEX none = some u ∧
      merge_urls u u = u)
    (hupd : ∀ c ∈ UPDATEABLE_COLUMNS, upd_row.getD c "" =
      colAfter s r c (new_row.getD c none) (old_row.getD c "") links
        (richTexts c))
    (hins : ∀ c ∈ UPDATEABLE_COLUMNS, ins_row.getD c "" =
      orEmpty (new_row.getD c none)) :
    (update_existing_row s r new_row upd_row UPDATEABLE_COLUMNS
        links2).1 = [] ∧
    (update_existing_row s r new_row ins_row UPDATEABLE_COLUMNS
        links2).1 = [] := by
  constructor
  · rw [update_existing_row_cells, List.flatten_eq_nil_iff]
    intro l hl
    rw [List.mem_map] at hl
    obtain ⟨c, hc, rfl⟩ := hl
    rw [hupd c hc]
    exact updateColumn_second_empty s r c _ _ (richTexts c) links links2
      (fun hc15 => by rw [hc15]; exact h15)
  · rw [update_existing_row_cells, List.flatten_eq_nil_iff]
    intro l hl
    rw [List.mem_map] at hl
    obtain ⟨c, hc, rfl⟩ := hl
    rw [hins c hc]
    exact updateColumn_own_value_empty s r c _ links2
      (fun hc15 => by rw [hc15]; exact h15)
      (fun hc21 => by rw [hc21]; exact h21)

/-- A scene with one performer; its scraped URL is already in canonical
merged form. -/
def c4Scene : Scene :=
  { performers := [{ name := "Alice", pair_url := "http://a" }]
    scene_id := "s1"
    scene_url := "http://x" }

/-- A header row and one blank (free-template) data row. -/
def c4Sheet0 : List (List String) := [[], []]

/-- First run: inserts the scene into free template row 2. -/
def c4Run1 : RunOutput := runUpload [c4Scene] "P" [] [] [] false c4Sheet0 3

/-- Second run, from the sheet with the first run's writes applied. -/
def c4Run2 : RunOutput :=
  runUpload [c4Scene] "P" [] [] [] false (applyRun c4Sheet0 c4Run1) 3

/-- C4, counterexample.  The second run over an unchanged source and the
first run's resulting sheet emits zero plain cell writes but re-emits
the performer rich-text replacement request, because the performer
branch of `update_existing_row` never compares the new value with the
old one — so the claim's "zero write requests ... neither plain cell
writes nor rich-text replacement requests" fails. -/
theorem second_run_reemits_rich_text :
    c4Run2.batch_cells = [] ∧ c4Run2.rich_text_requests ≠ [] := by
  constructor <;> decide

/-- The flattened, padded candidate row of `c4Scene`. -/
def c4NewRow : List CellValue :=
  padCandidate (flatten_scene_to_row c4Scene "P" [] [] [] false
    (fun x => x))

/-- The matched-row cell values after the first pass's writes. -/
def c4UpdRow : List String :=
  (List.range 22).map fun c =>
    colAfter 0 2 c (c4NewRow.getD c none) "" [] "R"

/-- The template-row cell values after the insertion writes. -/
def c4InsRow : List String :=
  (List.range 22).map fun c => orEmpty (c4NewRow.getD c none)

/-- C4, witness for the amended theorem at the concrete scene. -/
theorem second_pass_no_plain_cell_writes_witness :
    c4NewRow.getD DURATION_INDEX none ≠ none ∧
    (∃ u, c4NewRow.getD DATA18_URL_INDEX none = some u ∧
      merge_urls u u = u) ∧
    (update_existing_row 0 2 c4NewRow c4UpdRow UPDATEABLE_COLUMNS
        []).1 = [] ∧
    (update_existing_row 0 2 c4NewRow c4InsRow UPDATEABLE_COLUMNS
        []).1 = [] :=
  ⟨by decide, ⟨"http://x", by decide, by decide⟩,
    (second_pass_no_plain_cell_writes 0 2 c4NewRow [] c4UpdRow c4InsRow
      [] [] (fun _ => "R") (by decide)
      ⟨"http://x", by decide, by decide⟩ (by decide) (by decide)).1,
    (second_pass_no_plain_cell_writes 0 2 c4NewRow [] c4UpdRow c4InsRow
      [] [] (fun _ => "R") (by decide)
      ⟨"http://x", by decide, by decide⟩ (by decide) (by decide)).2⟩

end UploadScenes
